import Mathlib

/-!
# Step tracker: parsing of activity records and fitness metrics

A shallow embedding of the two Go packages of the tracker,

* `internal/daysteps`      (`parsePackage`, `DayActionInfo`) and
* `internal/spentcalories` (`parseTraining`, `distance`, `meanSpeed`, `TrainingInfo`,
  `RunningSpentCalories`, `WalkingSpentCalories`),

together with the parts of the Go standard library they call
(`strings.Split`, `strings.ToLower`, `strconv.Atoi`, `time.ParseDuration`,
`Duration.Hours`, `Duration.Minutes`, `fmt.Sprintf`, `fmt.Errorf`).

Modelling conventions.

* A Go `string` is a Lean `String`, that is a sequence of Unicode code points; byte strings
  that are not valid UTF-8 are outside the model.
* Go `int` and `time.Duration` are 64 bit signed integers, modelled by `Int`; the library
  functions that produce them enforce the range.
* Go `float64` is a type `F` with the operations of the class `Float64`.  Two instances are
  given: `B64`, IEEE 754 binary64 with round to nearest, ties to even, and `ℚ`, exact
  arithmetic without rounding.  Functions of the program are written once, over any `F`.
* A Go `error` is a value of the type `error`, one constructor per way of building an
  error; `nil` is `none`.  A function returning `(T, error)` returns a pair.
* `log.Println` only writes to the standard logger and is left out.
-/

/-! ## Strings -/

namespace strings

/-- Split a sequence of characters at every occurrence of `sep`: the fields between the
separators, `n + 1` of them for `n` separators. -/
def splitChars (sep : Char) : List Char → List (List Char)
  | [] => [[]]
  | c :: cs =>
    if c = sep then [] :: splitChars sep cs
    else
      match splitChars sep cs with
      | [] => [[c]]
      | p :: ps => (c :: p) :: ps

/-- Go `strings.Split(s, sep)` for a separator `sep` of one character. -/
def Split (s : String) (sep : Char) : List String :=
  (splitChars sep s.data).map String.mk

/-- The table of simple lower case mappings of Unicode (`unicode.ToLower` on one rune).
The table itself is data of the Go runtime; it is a parameter of the development. -/
class CaseTable where
  /-- Lower case of one rune. -/
  lower : Char → Char

/-- Go `strings.ToLower(s)`: every rune mapped by `unicode.ToLower`. -/
def ToLower [CaseTable] (s : String) : String :=
  String.mk (s.data.map CaseTable.lower)

/-- A case table covering the Latin letters of ASCII and the Russian alphabet
(`А`..`Я`, U+0410..U+042F), on which it agrees with Unicode; other runes are kept. -/
def basicLower (c : Char) : Char :=
  if 65 ≤ c.toNat ∧ c.toNat ≤ 90 then Char.ofNat (c.toNat + 32)
  else if 1040 ≤ c.toNat ∧ c.toNat ≤ 1071 then Char.ofNat (c.toNat + 32)
  else c

/-- The case table `basicLower`. -/
def basicCaseTable : CaseTable := ⟨basicLower⟩

end strings

/-! ## Decimal integers -/

namespace strconv

/-- The value of a decimal digit, `none` for any other character. -/
def digitVal (c : Char) : Option Nat :=
  if 48 ≤ c.toNat ∧ c.toNat ≤ 57 then some (c.toNat - 48) else none

/-- The decimal digit for `d < 10`. -/
def digitChar (d : Nat) : Char := Char.ofNat (48 + d % 10)

/-- Decimal digits of `n`, most significant first, in front of `acc`;
`fuel` bounds the number of digits produced. -/
def digitsAux : Nat → Nat → List Char → List Char
  | 0, _, acc => acc
  | fuel + 1, n, acc =>
    if n < 10 then digitChar n :: acc
    else digitsAux fuel (n / 10) (digitChar (n % 10) :: acc)

/-- Decimal digits of a natural number (`strconv.FormatUint(n, 10)`). -/
def natDigits (n : Nat) : List Char := digitsAux (n + 1) n []

/-- Go `strconv.Itoa(i)`, also the text `fmt` prints for the verb `%d`. -/
def Itoa (i : Int) : String :=
  if i < 0 then String.mk ('-' :: natDigits i.natAbs) else String.mk (natDigits i.natAbs)

/-- The two causes of a failed conversion: `strconv.ErrSyntax` and `strconv.ErrRange`. -/
inductive ErrKind
  | ErrSyntax
  | ErrRange
  deriving DecidableEq, Repr

/-- Go `*strconv.NumError`: the failing function, the input and the cause. -/
structure NumError where
  /-- The failing function. -/
  Func : String
  /-- The input. -/
  Num : String
  /-- The cause. -/
  Err : ErrKind
  deriving DecidableEq, Repr

/-- Largest `uint64`. -/
def maxUint64 : Nat := 2 ^ 64 - 1

/-- The loop of `strconv.ParseUint(s, 10, 64)`: `n` is the value of the digits read so
far.  A character that is not a digit is a syntax error; a value that leaves the range
of `uint64` is a range error, reported as soon as it happens. -/
def parseUintLoop : List Char → Nat → Except ErrKind Nat
  | [], n => .ok n
  | c :: cs, n =>
    match digitVal c with
    | none => .error .ErrSyntax
    | some d =>
      if n ≥ maxUint64 / 10 + 1 then .error .ErrRange
      else if n * 10 + d > maxUint64 then .error .ErrRange
      else parseUintLoop cs (n * 10 + d)

/-- Go `strconv.ParseUint(s, 10, 64)` on the characters of `s`. -/
def parseUint (s : List Char) : Except ErrKind Nat :=
  if s = [] then .error .ErrSyntax else parseUintLoop s 0

/-- Go `strconv.ParseInt(s, 10, 64)` on the characters of `s`: an optional sign, then
an unsigned number, then the range check of `int64`. -/
def parseInt (s : List Char) : Except ErrKind Int :=
  if s = [] then .error .ErrSyntax
  else
    let neg := s.head? = some '-'
    let body := if s.head? = some '+' ∨ s.head? = some '-' then s.tail else s
    match parseUint body with
    | .error .ErrSyntax => .error .ErrSyntax
    | .error .ErrRange => .error .ErrRange
    | .ok un =>
      if ¬ neg ∧ un ≥ 2 ^ 63 then .error .ErrRange
      else if neg ∧ un > 2 ^ 63 then .error .ErrRange
      else .ok (if neg then - (un : Int) else (un : Int))

/-- Go `strconv.Atoi(s)` on a platform with 64 bit `int`: the result of
`ParseInt(s, 10, 0)` (the fast path of `Atoi` for short inputs computes the same result),
with the error attributed to `Atoi`. -/
def Atoi (s : String) : Int × Option NumError :=
  match parseInt s.data with
  | .ok i => (i, none)
  | .error k => (0, some ⟨"Atoi", s, k⟩)

end strconv

/-! ## Floating point -/

/-- The operations on Go `float64` that the program and `time` use. -/
class Float64 (F : Type) extends Add F, Mul F, Div F where
  /-- The comparison `x <= y`. -/
  le : F → F → Bool
  /-- The comparison `x == y`. -/
  eq : F → F → Bool
  /-- The conversion `float64(i)` of an integer. -/
  ofInt : Int → F
  /-- The value of the constant `n / d`, as a `float64`. -/
  const : Nat → Nat → F
  /-- The conversion `uint64(x)`: truncation towards zero. -/
  toUint64 : F → Nat
  /-- The text `fmt` prints for the verb `%.2f`. -/
  format2 : F → String

/-- Text of `q / 100` with two decimals, for a natural number `q` of hundredths. -/
def hundredthsText (q : Nat) : String :=
  String.mk (strconv.natDigits (q / 100) ++
    ['.', strconv.digitChar (q % 100 / 10), strconv.digitChar (q % 10)])

/-- The integer nearest to `n / d`, ties to the even one. -/
def roundHalfEven (n d : Nat) : Nat :=
  let q := n / d
  let r := n % d
  if 2 * r > d ∨ (2 * r = d ∧ q % 2 = 1) then q + 1 else q

/-- Number of binary digits of `n`: halve until zero, at most `fuel` times. -/
def bitLenAux : Nat → Nat → Nat
  | 0, _ => 0
  | fuel + 1, n => if n = 0 then 0 else bitLenAux fuel (n / 2) + 1

/-- Number of binary digits of `n` (`bits.Len`). -/
def bitLen (n : Nat) : Nat := bitLenAux n n

/-- The power `2 ^ k` for `k ≥ 0`, and `1` for negative `k`. -/
def pow2 (k : Int) : Nat := 2 ^ k.toNat

/-- IEEE 754 binary64.  `fin neg m e` is the number `± m * 2 ^ e`; the values produced by
the operations below have `m < 2 ^ 53`, `-1074 ≤ e ≤ 971` and `2 ^ 52 ≤ m` unless
`e = -1074` (zero and the subnormal numbers). -/
inductive B64
  | fin (neg : Bool) (m : Nat) (e : Int)
  | inf (neg : Bool)
  | nan
  deriving DecidableEq, Repr

namespace B64

/-- The binary64 nearest to `± n / d` (for `d ≠ 0`), ties to the even mantissa;
infinite when the rounded value exceeds the largest finite number. -/
def round (neg : Bool) (n d : Nat) : B64 :=
  if n = 0 then fin neg 0 (-1074)
  else
    let k : Int := (bitLen n : Int) - (bitLen d : Int)
    -- the binary exponent of n / d is k or k - 1
    let l : Int := if d * pow2 k ≤ n * pow2 (-k) then k else k - 1
    let e : Int := max (l - 52) (-1074)
    let q := roundHalfEven (n * pow2 (-e)) (d * pow2 e)
    let m := if q = 2 ^ 53 then 2 ^ 52 else q
    let e1 := if q = 2 ^ 53 then e + 1 else e
    if e1 > 971 then inf neg else fin neg m e1

/-- The signed integer `± m`. -/
def signed (neg : Bool) (m : Nat) : Int := if neg then - (m : Int) else (m : Int)

/-- Product, correctly rounded. -/
def mul : B64 → B64 → B64
  | nan, _ => nan
  | _, nan => nan
  | inf s, inf t => inf (xor s t)
  | inf s, fin t m _ => if m = 0 then nan else inf (xor s t)
  | fin s m _, inf t => if m = 0 then nan else inf (xor s t)
  | fin s m e, fin t m1 e1 =>
    round (xor s t) (m * m1 * pow2 (e + e1)) (pow2 (- (e + e1)))

/-- Quotient, correctly rounded. -/
def div : B64 → B64 → B64
  | nan, _ => nan
  | _, nan => nan
  | inf _, inf _ => nan
  | inf s, fin t _ _ => inf (xor s t)
  | fin s _ _, inf t => fin (xor s t) 0 (-1074)
  | fin s m e, fin t m1 e1 =>
    if m1 = 0 then (if m = 0 then nan else inf (xor s t))
    else round (xor s t) (m * pow2 (e - e1)) (m1 * pow2 (e1 - e))

/-- Sum, correctly rounded. -/
def add : B64 → B64 → B64
  | nan, _ => nan
  | _, nan => nan
  | inf s, inf t => if s = t then inf s else nan
  | inf s, fin _ _ _ => inf s
  | fin _ _ _, inf t => inf t
  | fin s m e, fin t m1 e1 =>
    let e0 := min e e1
    let sum : Int := signed s (m * pow2 (e - e0)) + signed t (m1 * pow2 (e1 - e0))
    if sum = 0 then fin (s && t) 0 (-1074)
    else round (decide (sum < 0)) (sum.natAbs * pow2 e0) (pow2 (- e0))

/-- The comparison `x <= y`; false when an operand is not a number. -/
def le : B64 → B64 → Bool
  | nan, _ => false
  | _, nan => false
  | inf s, inf t => s || !t
  | inf s, fin _ _ _ => s
  | fin _ _ _, inf t => !t
  | fin s m e, fin t m1 e1 =>
    let e0 := min e e1
    decide (signed s (m * pow2 (e - e0)) ≤ signed t (m1 * pow2 (e1 - e0)))

/-- The comparison `x == y`; false when an operand is not a number, true for the
two zeros. -/
def eq : B64 → B64 → Bool
  | nan, _ => false
  | _, nan => false
  | inf s, inf t => s == t
  | inf _, fin _ _ _ => false
  | fin _ _ _, inf _ => false
  | fin s m e, fin t m1 e1 =>
    let e0 := min e e1
    decide (signed s (m * pow2 (e - e0)) = signed t (m1 * pow2 (e1 - e0)))

/-- The conversion `uint64(x)` for `0 ≤ x < 2 ^ 64`: the integral part.  Go leaves the
result for other values to the implementation; they are given `2 ^ 63`, the result on
amd64. -/
def toUint64 : B64 → Nat
  | fin false m e =>
    let t := m * pow2 e / pow2 (- e)
    if t < 2 ^ 64 then t else 2 ^ 63
  | fin true m e => if m * pow2 e / pow2 (- e) = 0 then 0 else 2 ^ 63
  | _ => 2 ^ 63

/-- The text of `%.2f`: the exact value rounded to two decimals, ties to even. -/
def format2 : B64 → String
  | nan => "NaN"
  | inf s => if s then "-Inf" else "+Inf"
  | fin s m e =>
    let t := hundredthsText (roundHalfEven (m * 100 * pow2 e) (pow2 (- e)))
    if s then "-" ++ t else t

end B64

instance : Float64 B64 where
  add := B64.add
  mul := B64.mul
  div := B64.div
  le := B64.le
  eq := B64.eq
  ofInt i := B64.round (decide (i < 0)) i.natAbs 1
  const n d := B64.round false n d
  toUint64 := B64.toUint64
  format2 := B64.format2

/-- Exact arithmetic: a `float64` taken as the rational number it stands for, with no
rounding, no overflow and no special values.  This is the idealisation that the
specification calls exact arithmetic; the arithmetic of the program itself is `B64`. -/
instance : Float64 ℚ where
  le x y := decide (x ≤ y)
  eq x y := decide (x = y)
  ofInt i := (i : ℚ)
  const n d := (n : ℚ) / (d : ℚ)
  toUint64 x := (Rat.floor x).toNat
  format2 x :=
    let t := hundredthsText (roundHalfEven (x.num.natAbs * 100) x.den)
    if x < 0 then "-" ++ t else t

/-! ## Durations -/

namespace time

/-- Go `time.Duration`: a signed 64 bit count of nanoseconds. -/
abbrev Duration := Int

/-- One minute, in nanoseconds. -/
def Minute : Duration := 60000000000

/-- One hour, in nanoseconds. -/
def Hour : Duration := 3600000000000

/-- The errors of `time.ParseDuration`, each with the quoted text it reports. -/
inductive ParseError
  | invalidDuration (orig : String)
  | missingUnit (orig : String)
  | unknownUnit (u : String) (orig : String)
  deriving DecidableEq, Repr

/-- The table `unitMap`: nanoseconds per unit. -/
def unitMap (u : List Char) : Option Nat :=
  if u = ['n', 's'] then some 1
  else if u = ['u', 's'] then some 1000
  else if u = [Char.ofNat 0xB5, 's'] then some 1000
  else if u = [Char.ofNat 0x3BC, 's'] then some 1000
  else if u = ['m', 's'] then some 1000000
  else if u = ['s'] then some 1000000000
  else if u = ['m'] then some 60000000000
  else if u = ['h'] then some 3600000000000
  else none

/-- Go `leadingInt`: the value of the leading digits after `x`, and the rest of the
input; `none` when the value exceeds `2 ^ 63`. -/
def leadingInt : List Char → Nat → Option (Nat × List Char)
  | [], x => some (x, [])
  | c :: cs, x =>
    match strconv.digitVal c with
    | none => some (x, c :: cs)
    | some dgt =>
      if x > 2 ^ 63 / 10 then none
      else if x * 10 + dgt > 2 ^ 63 then none
      else leadingInt cs (x * 10 + dgt)

/-- Go `leadingFraction`: the leading digits as a number `x` and a power of ten `scale`,
and the rest of the input; digits that would take `x` beyond `2 ^ 63` are dropped. -/
def leadingFraction : List Char → Nat → B64 → Bool → Nat × B64 × List Char
  | [], x, scale, _ => (x, scale, [])
  | c :: cs, x, scale, overflow =>
    match strconv.digitVal c with
    | none => (x, scale, c :: cs)
    | some dgt =>
      if overflow then leadingFraction cs x scale true
      else if x > (2 ^ 63 - 1) / 10 then leadingFraction cs x scale true
      else if x * 10 + dgt > 2 ^ 63 then leadingFraction cs x scale true
      else leadingFraction cs (x * 10 + dgt) (scale * Float64.const 10 1) false

/-- A character that may start a number: a digit or the decimal point. -/
def isNumChar (c : Char) : Bool := c = '.' ∨ (strconv.digitVal c).isSome

/-- The optional fraction of a group: after a decimal point, the digits as a number and
its scale; without one, the number `0` with scale `1`.  The last component is the rest of
the input. -/
def fraction (s1 : List Char) : Nat × B64 × List Char :=
  match s1 with
  | '.' :: s2 => leadingFraction s2 0 (Float64.const 1 1) false
  | _ => (0, Float64.const 1 1, s1)

/-- The nanoseconds of one group: `v` units, plus the fraction `f / scale` of a unit
computed as `uint64(float64(f) * (float64(unit) / scale))`; a `uint64`. -/
def groupValue (v unit f : Nat) (scale : B64) : Nat :=
  if f > 0 then
    (v * unit + Float64.toUint64
      ((Float64.ofInt f : B64) * ((Float64.ofInt unit : B64) / scale))) % 2 ^ 64
  else v * unit

/-- One round of the loop of `time.ParseDuration` on the non-empty input `c :: cs`: a
number with an optional fraction, then a unit.  The result is the nanoseconds of the group
and the rest of the input.  Go compares the value of the group with `1 << 63` only after
adding a fraction; without a fraction the comparison made here never fails, the product
`v * unit` being at most `2 ^ 63` by the comparison before it. -/
def parseGroup (orig : String) (c : Char) (cs : List Char) :
    Except ParseError (Nat × List Char) :=
  if ¬ isNumChar c then .error (.invalidDuration orig)
  else
    match leadingInt (c :: cs) 0 with
    | none => .error (.invalidDuration orig)
    | some (v, s1) =>
      let pre := decide (s1.length ≠ (c :: cs).length)
      let post := decide (s1.head? = some '.' ∧ (fraction s1).2.2.length ≠ s1.tail.length)
      if ¬ pre ∧ ¬ post then .error (.invalidDuration orig)
      else
        let u := (fraction s1).2.2.takeWhile (fun x => ¬ isNumChar x)
        let s4 := (fraction s1).2.2.dropWhile (fun x => ¬ isNumChar x)
        if u = [] then .error (.missingUnit orig)
        else
          match unitMap u with
          | none => .error (.unknownUnit (String.mk u) orig)
          | some unit =>
            if v > 2 ^ 63 / unit then .error (.invalidDuration orig)
            else if groupValue v unit (fraction s1).1 (fraction s1).2.1 > 2 ^ 63 then
              .error (.invalidDuration orig)
            else .ok (groupValue v unit (fraction s1).1 (fraction s1).2.1, s4)

/-- The loop of `time.ParseDuration` over the groups `number unit`; `d` is the sum of the
groups read so far, a `uint64`.  Every round consumes input, and `fuel` bounds the number
of rounds. -/
def parseLoop (orig : String) : Nat → List Char → Nat → Except ParseError Nat
  | _, [], d => .ok d
  | 0, _ :: _, _ => .error (.invalidDuration orig)
  | fuel + 1, c :: cs, d =>
    match parseGroup orig c cs with
    | .error e => .error e
    | .ok (v, s4) =>
      if (d + v) % 2 ^ 64 > 2 ^ 63 then .error (.invalidDuration orig)
      else parseLoop orig fuel s4 ((d + v) % 2 ^ 64)

/-- Go `time.ParseDuration(s)`: an optional sign, then either the single character `0`
or one or more groups of a decimal number and a unit. -/
def ParseDuration (s : String) : Duration × Option ParseError :=
  let neg := s.data.head? = some '-'
  let body := if s.data.head? = some '-' ∨ s.data.head? = some '+' then s.data.tail else s.data
  if body = ['0'] then (0, none)
  else if body = [] then (0, some (.invalidDuration s))
  else
    match parseLoop s body.length body 0 with
    | .error e => (0, some e)
    | .ok d =>
      if neg then (- (d : Int), none)
      else if d > 2 ^ 63 - 1 then (0, some (.invalidDuration s))
      else ((d : Int), none)

/-- Go `Duration.Hours`: the duration as a floating point number of hours. -/
def Hours {F : Type} [Float64 F] (d : Duration) : F :=
  let hour := Int.tdiv d Hour
  let nsec := Int.tmod d Hour
  Float64.ofInt hour + Float64.ofInt nsec / Float64.const 3600000000000 1

/-- Go `Duration.Minutes`: the duration as a floating point number of minutes. -/
def Minutes {F : Type} [Float64 F] (d : Duration) : F :=
  let min := Int.tdiv d Minute
  let nsec := Int.tmod d Minute
  Float64.ofInt min + Float64.ofInt nsec / Float64.const 60000000000 1

end time

/-! ## Errors and formatting -/

/-- A library error passed to `fmt.Errorf` for the verb `%v`. -/
inductive Cause
  | num (e : strconv.NumError)
  | duration (e : time.ParseError)
  deriving DecidableEq, Repr

/-- A Go `error` built by the program: the format string given to `fmt.Errorf` and the
error printed by its `%v` verb, if there is one. -/
structure Error where
  /-- The format string. -/
  format : String
  /-- The argument of `%v`. -/
  arg : Option Cause
  deriving DecidableEq, Repr

namespace fmt

/-- Go `fmt.Errorf(format)` for a format without verbs. -/
def Errorf (format : String) : Error := ⟨format, none⟩

/-- Go `fmt.Errorf(format, err)` for a format with the one verb `%v`. -/
def ErrorfV (format : String) (err : Cause) : Error := ⟨format, some err⟩

end fmt

/-! ## Package spentcalories -/

namespace spentcalories

/-- Mean step length, `lenStep = 0.65`. -/
def lenStep {F : Type} [Float64 F] : F := Float64.const 65 100

/-- Metres in a kilometre, `mInKm = 1000`. -/
def mInKm {F : Type} [Float64 F] : F := Float64.const 1000 1

/-- Minutes in an hour, `minInH = 60`. -/
def minInH {F : Type} [Float64 F] : F := Float64.const 60 1

/-- Step length per metre of height, `stepLengthCoefficient = 0.45`. -/
def stepLengthCoefficient {F : Type} [Float64 F] : F := Float64.const 45 100

/-- Calories of walking relative to running, `walkingCaloriesCoefficient = 0.5`. -/
def walkingCaloriesCoefficient {F : Type} [Float64 F] : F := Float64.const 1 2

/-- The floating point constant `0`. -/
def zero {F : Type} [Float64 F] : F := Float64.const 0 1

/-- Go `parseTraining`: the record `steps,activity,duration`. -/
def parseTraining (data : String) : Int × String × time.Duration × Option Error :=
  match strings.Split data ',' with
  | [p0, p1, p2] =>
    match strconv.Atoi p0 with
    | (_, some err) => (0, "", 0, some (fmt.ErrorfV "ошибка парсинга шагов: %v" (.num err)))
    | (steps, none) =>
      if steps ≤ 0 then (0, "", 0, some (fmt.Errorf "количество шагов должно быть положительным"))
      else
        let activityType := p1
        match time.ParseDuration p2 with
        | (_, some err) =>
          (0, "", 0, some (fmt.ErrorfV "ошибка парсинга времени: %v" (.duration err)))
        | (duration, none) =>
          if duration ≤ 0 then
            (0, "", 0, some (fmt.Errorf "продолжительность должна быть положительной"))
          else (steps, activityType, duration, none)
  | _ => (0, "", 0, some (fmt.Errorf "неверный формат данных"))

/-- Go `distance`: kilometres covered by `steps` steps at a step length of
`height * stepLengthCoefficient` metres. -/
def distance {F : Type} [Float64 F] (steps : Int) (height : F) : F :=
  let stepLength := height * stepLengthCoefficient
  let distanceMeters := Float64.ofInt steps * stepLength
  distanceMeters / mInKm

/-- Go `meanSpeed`: kilometres per hour, `0` for a duration that is not positive. -/
def meanSpeed {F : Type} [Float64 F] (steps : Int) (height : F) (duration : time.Duration) : F :=
  if duration ≤ 0 then zero
  else
    let dist := distance steps height
    let hours : F := time.Hours duration
    if Float64.eq hours zero then zero
    else dist / hours

/-- Go `RunningSpentCalories`. -/
def RunningSpentCalories {F : Type} [Float64 F] (steps : Int) (weight height : F)
    (duration : time.Duration) : F × Option Error :=
  if steps ≤ 0 then (zero, some (fmt.Errorf "количество шагов должно быть положительным"))
  else if Float64.le weight zero then (zero, some (fmt.Errorf "вес должен быть положительным"))
  else if Float64.le height zero then (zero, some (fmt.Errorf "рост должен быть положительным"))
  else if duration ≤ 0 then
    (zero, some (fmt.Errorf "продолжительность должна быть положительной"))
  else
    let speed := meanSpeed steps height duration
    if Float64.eq speed zero then (zero, some (fmt.Errorf "невозможно вычислить скорость"))
    else
      let durationMinutes : F := time.Minutes duration
      let calories := (weight * speed * durationMinutes) / minInH
      (calories, none)

/-- Go `WalkingSpentCalories`. -/
def WalkingSpentCalories {F : Type} [Float64 F] (steps : Int) (weight height : F)
    (duration : time.Duration) : F × Option Error :=
  if steps ≤ 0 then (zero, some (fmt.Errorf "количество шагов должно быть положительным"))
  else if Float64.le weight zero then (zero, some (fmt.Errorf "вес должен быть положительным"))
  else if Float64.le height zero then (zero, some (fmt.Errorf "рост должен быть положительным"))
  else if duration ≤ 0 then
    (zero, some (fmt.Errorf "продолжительность должна быть положительной"))
  else
    let speed := meanSpeed steps height duration
    if Float64.eq speed zero then (zero, some (fmt.Errorf "невозможно вычислить скорость"))
    else
      let durationMinutes : F := time.Minutes duration
      let calories := (weight * speed * durationMinutes) / minInH
      let calories := calories * walkingCaloriesCoefficient
      (calories, none)

/-- The values a training report prints: the label as given, the duration in hours,
distance, speed and calories. -/
structure Report (F : Type) where
  /-- The activity label. -/
  activityType : String
  /-- Duration in hours. -/
  hours : F
  /-- Distance in kilometres. -/
  dist : F
  /-- Speed in kilometres per hour. -/
  speed : F
  /-- Calories. -/
  calories : F

/-- The five `fmt.Sprintf` calls at the end of `TrainingInfo`. -/
def Report.text {F : Type} [Float64 F] (r : Report F) : String :=
  "Тип тренировки: " ++ r.activityType ++ "\n"
    ++ ("Длительность: " ++ Float64.format2 r.hours ++ " ч.\n")
    ++ ("Дистанция: " ++ Float64.format2 r.dist ++ " км.\n")
    ++ ("Скорость: " ++ Float64.format2 r.speed ++ " км/ч\n")
    ++ ("Сожгли калорий: " ++ Float64.format2 r.calories ++ "\n")

/-- The body of Go `TrainingInfo` up to the formatting: the values of the report, or the
error returned. -/
def trainingReport {F : Type} [Float64 F] [strings.CaseTable] (data : String)
    (weight height : F) : Except Error (Report F) :=
  match parseTraining data with
  | (_, _, _, some err) => .error err
  | (steps, activityType, duration, none) =>
    let label := strings.ToLower activityType
    if label = "бег" ∨ label = "running" then
      match RunningSpentCalories steps weight height duration with
      | (_, some err) => .error err
      | (calories, none) =>
        .ok ⟨activityType, time.Hours duration, distance steps height,
          meanSpeed steps height duration, calories⟩
    else if label = "ходьба" ∨ label = "walking" then
      match WalkingSpentCalories steps weight height duration with
      | (_, some err) => .error err
      | (calories, none) =>
        .ok ⟨activityType, time.Hours duration, distance steps height,
          meanSpeed steps height duration, calories⟩
    else .error (fmt.Errorf "неизвестный тип тренировки")

/-- Go `TrainingInfo`: the report as text and `nil`, or the empty string and the error. -/
def TrainingInfo {F : Type} [Float64 F] [strings.CaseTable] (data : String)
    (weight height : F) : String × Option Error :=
  match trainingReport data weight height with
  | .error err => ("", some err)
  | .ok r => (r.text, none)

end spentcalories

/-! ## Package daysteps -/

namespace daysteps

/-- Length of one step in metres, `stepLength = 0.65`. -/
def stepLength {F : Type} [Float64 F] : F := Float64.const 65 100

/-- Metres in a kilometre, `mInKm = 1000`. -/
def mInKm {F : Type} [Float64 F] : F := Float64.const 1000 1

/-- Go `parsePackage`: the record `steps,duration`. -/
def parsePackage (data : String) : Int × time.Duration × Option Error :=
  match strings.Split data ',' with
  | [p0, p1] =>
    match strconv.Atoi p0 with
    | (_, some err) => (0, 0, some (fmt.ErrorfV "ошибка парсинга шагов: %v" (.num err)))
    | (steps, none) =>
      if steps ≤ 0 then (0, 0, some (fmt.Errorf "количество шагов должно быть положительными"))
      else
        match time.ParseDuration p1 with
        | (_, some err) => (0, 0, some (fmt.ErrorfV "ошибка парсинга времени: %v" (.duration err)))
        | (duration, none) =>
          if duration ≤ 0 then
            (0, 0, some (fmt.Errorf "продолжительность должна быть положительной"))
          else (steps, duration, none)
  | _ => (0, 0, some (fmt.Errorf "неверный формат данных"))

/-- The values a daily report prints: steps, distance in kilometres and calories. -/
structure Report (F : Type) where
  /-- Number of steps. -/
  steps : Int
  /-- Distance in kilometres. -/
  distanceKm : F
  /-- Calories. -/
  calories : F

/-- The `fmt.Sprintf` call at the end of `DayActionInfo`. -/
def Report.text {F : Type} [Float64 F] (r : Report F) : String :=
  "Количество шагов: " ++ strconv.Itoa r.steps ++ ".\nДистанция составила "
    ++ Float64.format2 r.distanceKm ++ " км.\nВы сожгли "
    ++ Float64.format2 r.calories ++ " ккал.\n"

/-- The body of Go `DayActionInfo` up to the formatting: the values of the report, or the
error that is logged. -/
def dayReport {F : Type} [Float64 F] (data : String) (weight height : F) :
    Except Error (Report F) :=
  match parsePackage data with
  | (_, _, some err) => .error err
  | (steps, duration, none) =>
    let distanceMeters : F := Float64.ofInt steps * stepLength
    let distanceKm := distanceMeters / mInKm
    match spentcalories.WalkingSpentCalories steps weight height duration with
    | (_, some err) => .error err
    | (calories, none) => .ok ⟨steps, distanceKm, calories⟩

/-- Go `DayActionInfo`: the report as text, or the empty string after an error. -/
def DayActionInfo {F : Type} [Float64 F] (data : String) (weight height : F) : String :=
  match dayReport data weight height with
  | .error _ => ""
  | .ok r => r.text

end daysteps

/-! ## The errors of the two parsers -/

/-- The error for a record with a wrong number of fields (both packages). -/
def errFormat : Error := fmt.Errorf "неверный формат данных"

/-- The error for an activity label that is neither running nor walking. -/
def errUnknownActivity : Error := fmt.Errorf "неизвестный тип тренировки"

/-! ## Evaluation of the parsers on a record with the expected number of fields -/

theorem parsePackage_fields (data p0 p1 : String) (h : strings.Split data ',' = [p0, p1]) :
    daysteps.parsePackage data =
      match strconv.Atoi p0 with
      | (_, some err) => (0, 0, some (fmt.ErrorfV "ошибка парсинга шагов: %v" (.num err)))
      | (steps, none) =>
        if steps ≤ 0 then
          (0, 0, some (fmt.Errorf "количество шагов должно быть положительными"))
        else
          match time.ParseDuration p1 with
          | (_, some err) =>
            (0, 0, some (fmt.ErrorfV "ошибка парсинга времени: %v" (.duration err)))
          | (duration, none) =>
            if duration ≤ 0 then
              (0, 0, some (fmt.Errorf "продолжительность должна быть положительной"))
            else (steps, duration, none) := by
  unfold daysteps.parsePackage
  rw [h]

theorem parseTraining_fields (data p0 p1 p2 : String)
    (h : strings.Split data ',' = [p0, p1, p2]) :
    spentcalories.parseTraining data =
      match strconv.Atoi p0 with
      | (_, some err) => (0, "", 0, some (fmt.ErrorfV "ошибка парсинга шагов: %v" (.num err)))
      | (steps, none) =>
        if steps ≤ 0 then
          (0, "", 0, some (fmt.Errorf "количество шагов должно быть положительным"))
        else
          match time.ParseDuration p2 with
          | (_, some err) =>
            (0, "", 0, some (fmt.ErrorfV "ошибка парсинга времени: %v" (.duration err)))
          | (duration, none) =>
            if duration ≤ 0 then
              (0, "", 0, some (fmt.Errorf "продолжительность должна быть положительной"))
            else (steps, p1, duration, none) := by
  unfold spentcalories.parseTraining
  rw [h]

theorem parsePackage_length_ne (data : String) (h : (strings.Split data ',').length ≠ 2) :
    daysteps.parsePackage data = (0, 0, some errFormat) := by
  unfold daysteps.parsePackage
  split
  · rename_i heq
    rw [heq] at h
    exact absurd rfl h
  · rfl

theorem parseTraining_length_ne (data : String) (h : (strings.Split data ',').length ≠ 3) :
    spentcalories.parseTraining data = (0, "", 0, some errFormat) := by
  unfold spentcalories.parseTraining
  split
  · rename_i heq
    rw [heq] at h
    exact absurd rfl h
  · rfl

theorem parsePackage_cases (data : String) :
    (∃ e, daysteps.parsePackage data = (0, 0, some e)) ∨
    (∃ p0 p1 steps duration, strings.Split data ',' = [p0, p1] ∧
      strconv.Atoi p0 = (steps, none) ∧ 0 < steps ∧
      time.ParseDuration p1 = (duration, none) ∧ 0 < duration ∧
      daysteps.parsePackage data = (steps, duration, none)) := by
  unfold daysteps.parsePackage
  split
  · rename_i p0 p1 hsplit
    split
    · exact Or.inl ⟨_, rfl⟩
    · rename_i steps hatoi
      split
      · exact Or.inl ⟨_, rfl⟩
      · rename_i hsteps
        split
        · exact Or.inl ⟨_, rfl⟩
        · rename_i duration hdur
          split
          · exact Or.inl ⟨_, rfl⟩
          · rename_i hpos
            exact Or.inr ⟨p0, p1, steps, duration, hsplit, hatoi, not_le.mp hsteps, hdur,
              not_le.mp hpos, rfl⟩
  · exact Or.inl ⟨_, rfl⟩

theorem parseTraining_cases (data : String) :
    (∃ e, spentcalories.parseTraining data = (0, "", 0, some e)) ∨
    (∃ p0 p1 p2 steps duration, strings.Split data ',' = [p0, p1, p2] ∧
      strconv.Atoi p0 = (steps, none) ∧ 0 < steps ∧
      time.ParseDuration p2 = (duration, none) ∧ 0 < duration ∧
      spentcalories.parseTraining data = (steps, p1, duration, none)) := by
  unfold spentcalories.parseTraining
  split
  · rename_i p0 p1 p2 hsplit
    split
    · exact Or.inl ⟨_, rfl⟩
    · rename_i steps hatoi
      split
      · exact Or.inl ⟨_, rfl⟩
      · rename_i hsteps
        split
        · exact Or.inl ⟨_, rfl⟩
        · rename_i duration hdur
          split
          · exact Or.inl ⟨_, rfl⟩
          · rename_i hpos
            exact Or.inr ⟨p0, p1, p2, steps, duration, hsplit, hatoi, not_le.mp hsteps, hdur,
              not_le.mp hpos, rfl⟩
  · exact Or.inl ⟨_, rfl⟩

/-! ## The calorie functions -/

namespace spentcalories

theorem running_error_iff {F : Type} [Float64 F] (steps : Int) (weight height : F)
    (duration : time.Duration) :
    (RunningSpentCalories steps weight height duration).2 ≠ none ↔
      (steps ≤ 0 ∨ Float64.le weight zero = true ∨ Float64.le height zero = true ∨
        duration ≤ 0 ∨ Float64.eq (meanSpeed steps height duration) zero = true) := by
  unfold RunningSpentCalories
  by_cases h1 : steps ≤ 0
  · simp [h1]
  by_cases h2 : Float64.le weight zero = true
  · simp [h1, h2]
  by_cases h3 : Float64.le height zero = true
  · simp [h1, h2, h3]
  by_cases h4 : duration ≤ 0
  · simp [h1, h2, h3, h4]
  by_cases h5 : Float64.eq (meanSpeed steps height duration) zero = true
  · simp [h1, h2, h3, h4, h5]
  · simp [h1, h2, h3, h4, h5]

theorem walking_error_iff {F : Type} [Float64 F] (steps : Int) (weight height : F)
    (duration : time.Duration) :
    (WalkingSpentCalories steps weight height duration).2 ≠ none ↔
      (steps ≤ 0 ∨ Float64.le weight zero = true ∨ Float64.le height zero = true ∨
        duration ≤ 0 ∨ Float64.eq (meanSpeed steps height duration) zero = true) := by
  unfold WalkingSpentCalories
  by_cases h1 : steps ≤ 0
  · simp [h1]
  by_cases h2 : Float64.le weight zero = true
  · simp [h1, h2]
  by_cases h3 : Float64.le height zero = true
  · simp [h1, h2, h3]
  by_cases h4 : duration ≤ 0
  · simp [h1, h2, h3, h4]
  by_cases h5 : Float64.eq (meanSpeed steps height duration) zero = true
  · simp [h1, h2, h3, h4, h5]
  · simp [h1, h2, h3, h4, h5]

theorem running_error_value {F : Type} [Float64 F] (steps : Int) (weight height : F)
    (duration : time.Duration)
    (h : (RunningSpentCalories steps weight height duration).2 ≠ none) :
    (RunningSpentCalories steps weight height duration).1 = zero := by
  unfold RunningSpentCalories at h ⊢
  by_cases h1 : steps ≤ 0
  · simp [h1]
  by_cases h2 : Float64.le weight zero = true
  · simp [h1, h2]
  by_cases h3 : Float64.le height zero = true
  · simp [h1, h2, h3]
  by_cases h4 : duration ≤ 0
  · simp [h1, h2, h3, h4]
  by_cases h5 : Float64.eq (meanSpeed steps height duration) zero = true
  · simp [h1, h2, h3, h4, h5]
  · simp [h1, h2, h3, h4, h5] at h

theorem walking_error_value {F : Type} [Float64 F] (steps : Int) (weight height : F)
    (duration : time.Duration)
    (h : (WalkingSpentCalories steps weight height duration).2 ≠ none) :
    (WalkingSpentCalories steps weight height duration).1 = zero := by
  unfold WalkingSpentCalories at h ⊢
  by_cases h1 : steps ≤ 0
  · simp [h1]
  by_cases h2 : Float64.le weight zero = true
  · simp [h1, h2]
  by_cases h3 : Float64.le height zero = true
  · simp [h1, h2, h3]
  by_cases h4 : duration ≤ 0
  · simp [h1, h2, h3, h4]
  by_cases h5 : Float64.eq (meanSpeed steps height duration) zero = true
  · simp [h1, h2, h3, h4, h5]
  · simp [h1, h2, h3, h4, h5] at h

theorem running_ok {F : Type} [Float64 F] (steps : Int) (weight height : F)
    (duration : time.Duration) (hs : 0 < steps) (hw : Float64.le weight zero = false)
    (hh : Float64.le height zero = false) (hd : 0 < duration)
    (hv : Float64.eq (meanSpeed steps height duration) zero = false) :
    RunningSpentCalories steps weight height duration =
      ((weight * meanSpeed steps height duration * time.Minutes duration) / minInH, none) := by
  unfold RunningSpentCalories
  simp [not_le.mpr hs, not_le.mpr hd, hw, hh, hv]

theorem walking_ok {F : Type} [Float64 F] (steps : Int) (weight height : F)
    (duration : time.Duration) (hs : 0 < steps) (hw : Float64.le weight zero = false)
    (hh : Float64.le height zero = false) (hd : 0 < duration)
    (hv : Float64.eq (meanSpeed steps height duration) zero = false) :
    WalkingSpentCalories steps weight height duration =
      ((weight * meanSpeed steps height duration * time.Minutes duration) / minInH
        * walkingCaloriesCoefficient, none) := by
  unfold WalkingSpentCalories
  simp [not_le.mpr hs, not_le.mpr hd, hw, hh, hv]

theorem walking_of_running {F : Type} [Float64 F] (steps : Int) (weight height : F)
    (duration : time.Duration) :
    WalkingSpentCalories steps weight height duration =
      match RunningSpentCalories steps weight height duration with
      | (calories, none) => (calories * walkingCaloriesCoefficient, none)
      | (calories, some err) => (calories, some err) := by
  unfold WalkingSpentCalories RunningSpentCalories
  by_cases h1 : steps ≤ 0
  · simp [h1]
  by_cases h2 : Float64.le weight zero = true
  · simp [h1, h2]
  by_cases h3 : Float64.le height zero = true
  · simp [h1, h2, h3]
  by_cases h4 : duration ≤ 0
  · simp [h1, h2, h3, h4]
  by_cases h5 : Float64.eq (meanSpeed steps height duration) zero = true
  · simp [h1, h2, h3, h4, h5]
  · simp [h1, h2, h3, h4, h5]

theorem trainingReport_running {F : Type} [Float64 F] [strings.CaseTable] (data : String)
    (weight height : F) (steps : Int) (label : String) (duration : time.Duration)
    (hp : parseTraining data = (steps, label, duration, none))
    (hl : strings.ToLower label = "бег" ∨ strings.ToLower label = "running") :
    trainingReport data weight height =
      match RunningSpentCalories steps weight height duration with
      | (_, some err) => .error err
      | (calories, none) =>
        .ok ⟨label, time.Hours duration, distance steps height,
          meanSpeed steps height duration, calories⟩ := by
  unfold trainingReport
  rw [hp]
  simp only [hl, if_true]

theorem trainingReport_unknown {F : Type} [Float64 F] [strings.CaseTable] (data : String)
    (weight height : F) (steps : Int) (label : String) (duration : time.Duration)
    (hp : parseTraining data = (steps, label, duration, none))
    (h1 : strings.ToLower label ≠ "бег") (h2 : strings.ToLower label ≠ "running")
    (h3 : strings.ToLower label ≠ "ходьба") (h4 : strings.ToLower label ≠ "walking") :
    trainingReport data weight height = .error errUnknownActivity := by
  unfold trainingReport
  rw [hp]
  simp only [h1, h2, h3, h4, or_self, if_false]
  rfl

theorem trainingReport_parse_error {F : Type} [Float64 F] [strings.CaseTable] (data : String)
    (weight height : F) (e : Error) (hp : (parseTraining data).2.2.2 = some e) :
    trainingReport data weight height = .error e := by
  unfold trainingReport
  split
  · rename_i err heq
    rw [heq] at hp
    simp only [Option.some.injEq] at hp
    rw [hp]
  · rename_i heq
    rw [heq] at hp
    cases hp

theorem trainingInfo_of_report {F : Type} [Float64 F] [strings.CaseTable] (data : String)
    (weight height : F) :
    TrainingInfo data weight height =
      match trainingReport data weight height with
      | .error err => ("", some err)
      | .ok r => (r.text, none) := rfl

end spentcalories

namespace daysteps

theorem dayReport_parse_error {F : Type} [Float64 F] (data : String) (weight height : F)
    (e : Error) (hp : (parsePackage data).2.2 = some e) :
    dayReport data weight height = .error e := by
  unfold dayReport
  split
  · rename_i err heq
    rw [heq] at hp
    simp only [Option.some.injEq] at hp
    rw [hp]
  · rename_i heq
    rw [heq] at hp
    cases hp

theorem dayReport_parsed {F : Type} [Float64 F] (data : String) (weight height : F)
    (steps : Int) (duration : time.Duration) (hp : parsePackage data = (steps, duration, none)) :
    dayReport data weight height =
      match spentcalories.WalkingSpentCalories steps weight height duration with
      | (_, some err) => .error err
      | (calories, none) =>
        .ok ⟨steps, Float64.ofInt steps * stepLength / mInKm, calories⟩ := by
  unfold dayReport
  rw [hp]

end daysteps

/-! ## Claims about the calorie functions -/

/-- C1: for every steps, weight, height and duration, `WalkingSpentCalories` succeeds
exactly when `RunningSpentCalories` succeeds on the same arguments, and when they succeed
the walking result is the running result multiplied by the walking coefficient `0.5`. -/
theorem walking_is_half_of_running {F : Type} [Float64 F] (steps : Int) (weight height : F)
    (duration : time.Duration) :
    ((spentcalories.WalkingSpentCalories steps weight height duration).2 = none ↔
      (spentcalories.RunningSpentCalories steps weight height duration).2 = none) ∧
    ((spentcalories.RunningSpentCalories steps weight height duration).2 = none →
      (spentcalories.WalkingSpentCalories steps weight height duration).1 =
        (spentcalories.RunningSpentCalories steps weight height duration).1
          * Float64.const 1 2) := by
  rw [spentcalories.walking_of_running]
  rcases hr : spentcalories.RunningSpentCalories steps weight height duration with ⟨c, _ | e⟩
  · exact ⟨Iff.rfl, fun _ => rfl⟩
  · exact ⟨Iff.rfl, fun h => by cases h⟩

/-- C10: `RunningSpentCalories` and `WalkingSpentCalories` each return an error exactly
when steps ≤ 0, or weight ≤ 0, or height ≤ 0, or duration ≤ 0, or the computed mean speed
equals 0, and the value returned with an error is 0. -/
theorem calories_error_exactly {F : Type} [Float64 F] (steps : Int) (weight height : F)
    (duration : time.Duration) :
    ((spentcalories.RunningSpentCalories steps weight height duration).2 ≠ none ↔
      (steps ≤ 0 ∨ Float64.le weight spentcalories.zero = true ∨
        Float64.le height spentcalories.zero = true ∨ duration ≤ 0 ∨
        Float64.eq (spentcalories.meanSpeed steps height duration) spentcalories.zero = true)) ∧
    ((spentcalories.RunningSpentCalories steps weight height duration).2 ≠ none →
      (spentcalories.RunningSpentCalories steps weight height duration).1 = Float64.const 0 1) ∧
    ((spentcalories.WalkingSpentCalories steps weight height duration).2 ≠ none ↔
      (steps ≤ 0 ∨ Float64.le weight spentcalories.zero = true ∨
        Float64.le height spentcalories.zero = true ∨ duration ≤ 0 ∨
        Float64.eq (spentcalories.meanSpeed steps height duration) spentcalories.zero = true)) ∧
    ((spentcalories.WalkingSpentCalories steps weight height duration).2 ≠ none →
      (spentcalories.WalkingSpentCalories steps weight height duration).1 = Float64.const 0 1) :=
  ⟨spentcalories.running_error_iff steps weight height duration,
    spentcalories.running_error_value steps weight height duration,
    spentcalories.walking_error_iff steps weight height duration,
    spentcalories.walking_error_value steps weight height duration⟩

/-! ## Claims about the parsers -/

/-- C8: when `parsePackage` or `parseTraining` returns no error, the step count and the
duration returned are positive; when it returns an error, every other result is its zero
value (0 steps, empty label, 0 duration). -/
theorem parsed_record_valid_or_zero (data : String) :
    ((daysteps.parsePackage data).2.2 = none →
      0 < (daysteps.parsePackage data).1 ∧ 0 < (daysteps.parsePackage data).2.1) ∧
    ((daysteps.parsePackage data).2.2 ≠ none →
      (daysteps.parsePackage data).1 = 0 ∧ (daysteps.parsePackage data).2.1 = 0) ∧
    ((spentcalories.parseTraining data).2.2.2 = none →
      0 < (spentcalories.parseTraining data).1 ∧
      0 < (spentcalories.parseTraining data).2.2.1) ∧
    ((spentcalories.parseTraining data).2.2.2 ≠ none →
      (spentcalories.parseTraining data).1 = 0 ∧
      (spentcalories.parseTraining data).2.1 = "" ∧
      (spentcalories.parseTraining data).2.2.1 = 0) := by
  refine ⟨?_, ?_, ?_, ?_⟩
  · rcases parsePackage_cases data with ⟨e, h⟩ | ⟨_, _, s, d, _, _, hs, _, hd, h⟩
    · rw [h]; intro h0; cases h0
    · rw [h]; exact fun _ => ⟨hs, hd⟩
  · rcases parsePackage_cases data with ⟨e, h⟩ | ⟨_, _, s, d, _, _, hs, _, hd, h⟩
    · rw [h]; exact fun _ => ⟨rfl, rfl⟩
    · rw [h]; intro h0; exact absurd rfl h0
  · rcases parseTraining_cases data with ⟨e, h⟩ | ⟨_, _, _, s, d, _, _, hs, _, hd, h⟩
    · rw [h]; intro h0; cases h0
    · rw [h]; exact fun _ => ⟨hs, hd⟩
  · rcases parseTraining_cases data with ⟨e, h⟩ | ⟨_, _, _, s, d, _, _, hs, _, hd, h⟩
    · rw [h]; exact fun _ => ⟨rfl, rfl, rfl⟩
    · rw [h]; intro h0; exact absurd rfl h0

/-- C7: `parsePackage` returns the malformed record error when the input does not split
at commas into exactly 2 fields, `parseTraining` when it does not split into exactly 3;
the inputs `abc,1h`, `1000` and `1000,1h,bad,extra` make both `DayActionInfo` and
`TrainingInfo` fail; and on every input each entry point returns either its failure
result or the text of a report. -/
theorem malformed_record_rejected :
    (∀ data : String, (strings.Split data ',').length ≠ 2 →
      daysteps.parsePackage data = (0, 0, some errFormat)) ∧
    (∀ data : String, (strings.Split data ',').length ≠ 3 →
      spentcalories.parseTraining data = (0, "", 0, some errFormat)) ∧
    (∀ (F : Type) [Float64 F] [strings.CaseTable] (weight height : F) (data : String),
      data ∈ ["abc,1h", "1000", "1000,1h,bad,extra"] →
        daysteps.DayActionInfo data weight height = "" ∧
        spentcalories.TrainingInfo data weight height = ("", some errFormat)) ∧
    (∀ (F : Type) [Float64 F] [strings.CaseTable] (weight height : F) (data : String),
      (daysteps.DayActionInfo data weight height = "" ∨
        ∃ r : daysteps.Report F, daysteps.DayActionInfo data weight height = r.text) ∧
      ((∃ e, spentcalories.TrainingInfo data weight height = ("", some e)) ∨
        ∃ r : spentcalories.Report F,
          spentcalories.TrainingInfo data weight height = (r.text, none))) := by
  refine ⟨parsePackage_length_ne, parseTraining_length_ne, ?_, ?_⟩
  · intro F _ _ weight height data hmem
    have hday : ∀ (d : String) (e : Error), (daysteps.parsePackage d).2.2 = some e →
        daysteps.DayActionInfo d weight height = "" := by
      intro d e he
      unfold daysteps.DayActionInfo
      rw [daysteps.dayReport_parse_error d weight height e he]
    have htr : ∀ d : String, (spentcalories.parseTraining d).2.2.2 = some errFormat →
        spentcalories.TrainingInfo d weight height = ("", some errFormat) := by
      intro d he
      rw [spentcalories.trainingInfo_of_report,
        spentcalories.trainingReport_parse_error d weight height errFormat he]
    simp only [List.mem_cons, List.mem_singleton, List.not_mem_nil, or_false] at hmem
    rcases hmem with h | h | h
    · subst h
      exact ⟨hday _ _ (by decide : _ = some (fmt.ErrorfV "ошибка парсинга шагов: %v"
        (.num ⟨"Atoi", "abc", .ErrSyntax⟩))), htr _ (by decide)⟩
    · subst h
      exact ⟨hday _ errFormat (by decide), htr _ (by decide)⟩
    · subst h
      exact ⟨hday _ errFormat (by decide), htr _ (by decide)⟩
  · intro F _ _ weight height data
    constructor
    · unfold daysteps.DayActionInfo
      cases daysteps.dayReport data weight height with
      | error e => exact Or.inl rfl
      | ok r => exact Or.inr ⟨r, rfl⟩
    · rw [spentcalories.trainingInfo_of_report]
      cases spentcalories.trainingReport data weight height with
      | error e => exact Or.inl ⟨e, rfl⟩
      | ok r => exact Or.inr ⟨r, rfl⟩

/-- C5: for a record with the expected number of fields whose first field is not a
base 10 integer, or is an integer ≤ 0, `parseTraining` and `parsePackage` return an error,
`TrainingInfo` returns the empty string with that error and `DayActionInfo` returns the
empty string, whatever the other fields, the weight and the height. -/
theorem invalid_step_count_rejected (data : String) :
    (∀ p0 p1 p2 : String, strings.Split data ',' = [p0, p1, p2] →
      ((strconv.Atoi p0).2 ≠ none ∨ (strconv.Atoi p0).1 ≤ 0) →
      ∃ e, spentcalories.parseTraining data = (0, "", 0, some e) ∧
        ∀ (F : Type) [Float64 F] [strings.CaseTable] (weight height : F),
          spentcalories.TrainingInfo data weight height = ("", some e)) ∧
    (∀ p0 p1 : String, strings.Split data ',' = [p0, p1] →
      ((strconv.Atoi p0).2 ≠ none ∨ (strconv.Atoi p0).1 ≤ 0) →
      (∃ e, daysteps.parsePackage data = (0, 0, some e)) ∧
        ∀ (F : Type) [Float64 F] (weight height : F),
          daysteps.DayActionInfo data weight height = "") := by
  constructor
  · intro p0 p1 p2 hsplit hbad
    rcases parseTraining_cases data with ⟨e, h⟩ | ⟨q0, _, _, s, d, hs, ha, hpos, _, _, _⟩
    · refine ⟨e, h, ?_⟩
      intro F _ _ weight height
      rw [spentcalories.trainingInfo_of_report,
        spentcalories.trainingReport_parse_error data weight height e (by rw [h])]
    · rw [hsplit] at hs
      simp only [List.cons.injEq, and_true] at hs
      rw [hs.1, ha] at hbad
      rcases hbad with hb | hb
      · exact absurd rfl hb
      · exact absurd hpos (not_lt.mpr hb)
  · intro p0 p1 hsplit hbad
    rcases parsePackage_cases data with ⟨e, h⟩ | ⟨q0, _, s, d, hs, ha, hpos, _, _, _⟩
    · refine ⟨⟨e, h⟩, ?_⟩
      intro F _ weight height
      unfold daysteps.DayActionInfo
      rw [daysteps.dayReport_parse_error data weight height e (by rw [h])]
    · rw [hsplit] at hs
      simp only [List.cons.injEq, and_true] at hs
      rw [hs.1, ha] at hbad
      rcases hbad with hb | hb
      · exact absurd rfl hb
      · exact absurd hpos (not_lt.mpr hb)

/-- C9: for a record with the expected number of fields and a valid positive step count,
`parsePackage` and `parseTraining` return an error exactly when the last field is not a
duration expression or is a duration ≤ 0; otherwise they succeed and return the steps and
that duration (and `parseTraining` the label). -/
theorem duration_field_decides (data : String) :
    (∀ p0 p1 : String, strings.Split data ',' = [p0, p1] →
      (strconv.Atoi p0).2 = none → 0 < (strconv.Atoi p0).1 →
      (((daysteps.parsePackage data).2.2 ≠ none ↔
          ((time.ParseDuration p1).2 ≠ none ∨ (time.ParseDuration p1).1 ≤ 0)) ∧
        ((daysteps.parsePackage data).2.2 = none →
          daysteps.parsePackage data =
            ((strconv.Atoi p0).1, (time.ParseDuration p1).1, none)))) ∧
    (∀ p0 p1 p2 : String, strings.Split data ',' = [p0, p1, p2] →
      (strconv.Atoi p0).2 = none → 0 < (strconv.Atoi p0).1 →
      (((spentcalories.parseTraining data).2.2.2 ≠ none ↔
          ((time.ParseDuration p2).2 ≠ none ∨ (time.ParseDuration p2).1 ≤ 0)) ∧
        ((spentcalories.parseTraining data).2.2.2 = none →
          spentcalories.parseTraining data =
            ((strconv.Atoi p0).1, p1, (time.ParseDuration p2).1, none)))) := by
  constructor
  · intro p0 p1 hsplit hnone hpos
    rw [parsePackage_fields data p0 p1 hsplit]
    rcases ha : strconv.Atoi p0 with ⟨s, _ | e⟩
    · rw [ha] at hpos
      rcases hd : time.ParseDuration p1 with ⟨d, _ | e⟩
      · by_cases hle : d ≤ 0
        · simp [not_le.mpr hpos, hle]
        · simp [not_le.mpr hpos, hle]
      · simp [not_le.mpr hpos]
    · rw [ha] at hnone
      cases hnone
  · intro p0 p1 p2 hsplit hnone hpos
    rw [parseTraining_fields data p0 p1 p2 hsplit]
    rcases ha : strconv.Atoi p0 with ⟨s, _ | e⟩
    · rw [ha] at hpos
      rcases hd : time.ParseDuration p2 with ⟨d, _ | e⟩
      · by_cases hle : d ≤ 0
        · simp [not_le.mpr hpos, hle]
        · simp [not_le.mpr hpos, hle]
      · simp [not_le.mpr hpos]
    · rw [ha] at hnone
      cases hnone

/-- C6: for a 3 field record with a valid positive step count and a valid positive
duration whose activity label, in lower case, is none of `бег`, `running`, `ходьба`,
`walking`, `parseTraining` succeeds and returns the label unchanged, while `TrainingInfo`
returns the empty string and the unknown activity error for every weight and height. -/
theorem unknown_activity_rejected_by_report [strings.CaseTable] (data p0 p1 p2 : String)
    (steps : Int) (duration : time.Duration)
    (hsplit : strings.Split data ',' = [p0, p1, p2])
    (hsteps : strconv.Atoi p0 = (steps, none)) (hpos : 0 < steps)
    (hdur : time.ParseDuration p2 = (duration, none)) (hdpos : 0 < duration)
    (hlabel : strings.ToLower p1 ≠ "бег" ∧ strings.ToLower p1 ≠ "running" ∧
      strings.ToLower p1 ≠ "ходьба" ∧ strings.ToLower p1 ≠ "walking") :
    spentcalories.parseTraining data = (steps, p1, duration, none) ∧
    ∀ (F : Type) [Float64 F] (weight height : F),
      spentcalories.TrainingInfo data weight height = ("", some errUnknownActivity) := by
  have hp : spentcalories.parseTraining data = (steps, p1, duration, none) := by
    rw [parseTraining_fields data p0 p1 p2 hsplit, hsteps]
    simp only [not_le.mpr hpos, if_false]
    rw [hdur]
    simp only [not_le.mpr hdpos, if_false]
  refine ⟨hp, ?_⟩
  intro F _ weight height
  rw [spentcalories.trainingInfo_of_report,
    spentcalories.trainingReport_unknown data weight height steps p1 duration hp
      hlabel.1 hlabel.2.1 hlabel.2.2.1 hlabel.2.2.2]

/-- Witness for C6: the record `1000,хоккей,45m` of the specification. -/
theorem unknown_activity_rejected_by_report_witness :
    spentcalories.parseTraining "1000,хоккей,45m" = (1000, "хоккей", 2700000000000, none) ∧
    ∀ (F : Type) [Float64 F] (weight height : F),
      @spentcalories.TrainingInfo F _ strings.basicCaseTable "1000,хоккей,45m" weight height
        = ("", some errUnknownActivity) :=
  @unknown_activity_rejected_by_report strings.basicCaseTable "1000,хоккей,45m"
    "1000" "хоккей" "45m" 1000 2700000000000 (by decide) (by decide) (by decide) (by decide)
    (by decide) (by decide)

/-- Witness for C5: the record `0,бег,1h` of the specification. -/
theorem invalid_step_count_rejected_witness :
    ∃ e, spentcalories.parseTraining "0,бег,1h" = (0, "", 0, some e) ∧
      ∀ (F : Type) [Float64 F] [strings.CaseTable] (weight height : F),
        spentcalories.TrainingInfo "0,бег,1h" weight height = ("", some e) :=
  (invalid_step_count_rejected "0,бег,1h").1 "0" "бег" "1h" (by decide) (by decide)

theorem parseTraining_label_irrelevant (data1 data2 p0 l1 l2 p2 : String)
    (h1 : strings.Split data1 ',' = [p0, l1, p2])
    (h2 : strings.Split data2 ',' = [p0, l2, p2]) :
    (∃ e, spentcalories.parseTraining data1 = (0, "", 0, some e) ∧
      spentcalories.parseTraining data2 = (0, "", 0, some e)) ∨
    (∃ steps duration, spentcalories.parseTraining data1 = (steps, l1, duration, none) ∧
      spentcalories.parseTraining data2 = (steps, l2, duration, none)) := by
  rw [parseTraining_fields data1 p0 l1 p2 h1, parseTraining_fields data2 p0 l2 p2 h2]
  rcases strconv.Atoi p0 with ⟨s, _ | e⟩
  · by_cases hs : s ≤ 0
    · simp only [hs, if_true]
      exact Or.inl ⟨_, rfl, rfl⟩
    · simp only [hs, if_false]
      rcases time.ParseDuration p2 with ⟨d, _ | e⟩
      · by_cases hd : d ≤ 0
        · simp only [hd, if_true]
          exact Or.inl ⟨_, rfl, rfl⟩
        · simp only [hd, if_false]
          exact Or.inr ⟨s, d, rfl, rfl⟩
      · exact Or.inl ⟨_, rfl, rfl⟩
  · exact Or.inl ⟨_, rfl, rfl⟩

/-- C4: `TrainingInfo` called with an activity label whose lower case form is `бег` or
`running` computes the calories with `RunningSpentCalories`; two such calls on records
that differ only in the label return the same error, and when they succeed the same
duration, distance, speed and calories. -/
theorem running_label_any_case {F : Type} [Float64 F] [strings.CaseTable]
    (data1 data2 p0 l1 l2 p2 : String) (weight height : F)
    (h1 : strings.Split data1 ',' = [p0, l1, p2])
    (h2 : strings.Split data2 ',' = [p0, l2, p2])
    (hl1 : strings.ToLower l1 = "бег" ∨ strings.ToLower l1 = "running")
    (hl2 : strings.ToLower l2 = "бег" ∨ strings.ToLower l2 = "running") :
    (∀ (steps : Int) (label : String) (duration : time.Duration),
      spentcalories.parseTraining data1 = (steps, label, duration, none) →
      spentcalories.trainingReport data1 weight height =
        match spentcalories.RunningSpentCalories steps weight height duration with
        | (_, some err) => .error err
        | (calories, none) =>
          .ok ⟨label, time.Hours duration, spentcalories.distance steps height,
            spentcalories.meanSpeed steps height duration, calories⟩) ∧
    (spentcalories.TrainingInfo data1 weight height).2 =
      (spentcalories.TrainingInfo data2 weight height).2 ∧
    (∀ r1 r2 : spentcalories.Report F,
      spentcalories.trainingReport data1 weight height = .ok r1 →
      spentcalories.trainingReport data2 weight height = .ok r2 →
      r1.hours = r2.hours ∧ r1.dist = r2.dist ∧ r1.speed = r2.speed ∧
        r1.calories = r2.calories) := by
  have hroute : ∀ (steps : Int) (label : String) (duration : time.Duration),
      spentcalories.parseTraining data1 = (steps, label, duration, none) →
      spentcalories.trainingReport data1 weight height =
        match spentcalories.RunningSpentCalories steps weight height duration with
        | (_, some err) => .error err
        | (calories, none) =>
          .ok ⟨label, time.Hours duration, spentcalories.distance steps height,
            spentcalories.meanSpeed steps height duration, calories⟩ := by
    intro steps label duration hp
    have hlab : label = l1 := by
      have := parseTraining_fields data1 p0 l1 p2 h1
      rw [hp] at this
      rcases ha : strconv.Atoi p0 with ⟨s, _ | e⟩
      · rw [ha] at this
        by_cases hs : s ≤ 0
        · simp [hs] at this
        · rcases hpd : time.ParseDuration p2 with ⟨d, _ | e⟩
          · rw [hpd] at this
            by_cases hd : d ≤ 0
            · simp [hs, hd] at this
            · simp [hs, hd] at this
              exact this.2.1
          · rw [hpd] at this
            simp [hs] at this
      · rw [ha] at this
        simp at this
    subst hlab
    exact spentcalories.trainingReport_running data1 weight height steps label duration hp hl1
  refine ⟨hroute, ?_, ?_⟩
  · rw [spentcalories.trainingInfo_of_report, spentcalories.trainingInfo_of_report]
    rcases parseTraining_label_irrelevant data1 data2 p0 l1 l2 p2 h1 h2 with
      ⟨e, e1, e2⟩ | ⟨s, d, e1, e2⟩
    · rw [spentcalories.trainingReport_parse_error data1 weight height e (by rw [e1]),
        spentcalories.trainingReport_parse_error data2 weight height e (by rw [e2])]
    · rw [spentcalories.trainingReport_running data1 weight height s l1 d e1 hl1,
        spentcalories.trainingReport_running data2 weight height s l2 d e2 hl2]
      rcases spentcalories.RunningSpentCalories s weight height d with ⟨c, _ | e⟩ <;> rfl
  · intro r1 r2 hr1 hr2
    rcases parseTraining_label_irrelevant data1 data2 p0 l1 l2 p2 h1 h2 with
      ⟨e, e1, e2⟩ | ⟨s, d, e1, e2⟩
    · rw [spentcalories.trainingReport_parse_error data1 weight height e (by rw [e1])] at hr1
      cases hr1
    · rw [spentcalories.trainingReport_running data1 weight height s l1 d e1 hl1] at hr1
      rw [spentcalories.trainingReport_running data2 weight height s l2 d e2 hl2] at hr2
      rcases hrun : spentcalories.RunningSpentCalories s weight height d with ⟨c, _ | e⟩
      · rw [hrun] at hr1 hr2
        simp only [Except.ok.injEq] at hr1 hr2
        subst hr1 hr2
        exact ⟨rfl, rfl, rfl, rfl⟩
      · rw [hrun] at hr1
        cases hr1

/-! ## Splitting a record built from its fields -/

namespace strings

theorem splitChars_ne_nil (sep : Char) (l : List Char) : splitChars sep l ≠ [] := by
  cases l with
  | nil => simp [splitChars]
  | cons c cs =>
    unfold splitChars
    split
    · simp
    · split <;> simp

theorem splitChars_of_not_mem (sep : Char) (a : List Char) (ha : sep ∉ a) :
    splitChars sep a = [a] := by
  induction a with
  | nil => rfl
  | cons c cs ih =>
    have hc : c ≠ sep := fun h => ha (by simp [h])
    have hcs : sep ∉ cs := fun h => ha (by simp [h])
    unfold splitChars
    rw [ih hcs]
    simp [hc]

theorem splitChars_append (sep : Char) (a b : List Char) (ha : sep ∉ a) :
    splitChars sep (a ++ sep :: b) = a :: splitChars sep b := by
  induction a with
  | nil =>
    rw [List.nil_append]
    conv_lhs => unfold splitChars
    simp
  | cons c cs ih =>
    have hc : c ≠ sep := fun h => ha (by simp [h])
    have hcs : sep ∉ cs := fun h => ha (by simp [h])
    rw [List.cons_append]
    conv_lhs => unfold splitChars
    rw [ih hcs]
    simp [hc]

theorem split_two (a b : String) (ha : ',' ∉ a.data) (hb : ',' ∉ b.data) :
    Split (a ++ "," ++ b) ',' = [a, b] := by
  unfold Split
  have hd : (a ++ "," ++ b).data = a.data ++ ',' :: b.data := by
    simp [String.data_append]
  rw [hd, splitChars_append ',' _ _ ha, splitChars_of_not_mem ',' _ hb]
  rfl

end strings

/-! ## Reading back a printed integer -/

namespace strconv

theorem digitVal_digitChar (d : Nat) (hd : d < 10) : digitVal (digitChar d) = some d := by
  interval_cases d <;> decide

theorem digitVal_digitChar_isSome (d : Nat) : (digitVal (digitChar d)).isSome = true := by
  unfold digitChar
  have h : d % 10 < 10 := Nat.mod_lt _ (by decide)
  interval_cases (d % 10) <;> decide

theorem digitsAux_acc (fuel n : Nat) (acc : List Char) :
    digitsAux fuel n acc = digitsAux fuel n [] ++ acc := by
  induction fuel generalizing n acc with
  | zero => simp [digitsAux]
  | succ f ih =>
    unfold digitsAux
    split
    · simp
    · rw [ih (n / 10) (digitChar (n % 10) :: acc), ih (n / 10) [digitChar (n % 10)]]
      simp

theorem digitsAux_fuel (fuel1 fuel2 n : Nat) (acc : List Char) (h1 : n < fuel1)
    (h2 : n < fuel2) : digitsAux fuel1 n acc = digitsAux fuel2 n acc := by
  induction fuel1 generalizing fuel2 n acc with
  | zero => omega
  | succ f ih =>
    cases fuel2 with
    | zero => omega
    | succ g =>
      unfold digitsAux
      split
      · rfl
      · exact ih g (n / 10) _ (by omega) (by omega)

theorem natDigits_small (n : Nat) (h : n < 10) : natDigits n = [digitChar n] := by
  simp [natDigits, digitsAux, h]

theorem natDigits_step (n : Nat) (h : 10 ≤ n) :
    natDigits n = natDigits (n / 10) ++ [digitChar (n % 10)] := by
  unfold natDigits
  rw [digitsAux]
  simp only [not_lt.mpr h, if_false]
  rw [digitsAux_acc, digitsAux_fuel n (n / 10 + 1) (n / 10) [] (by omega) (by omega)]

theorem natDigits_digits (n : Nat) : ∀ c ∈ natDigits n, (digitVal c).isSome = true := by
  induction n using Nat.strong_induction_on with
  | _ n ih =>
    intro c hc
    by_cases h : n < 10
    · rw [natDigits_small n h] at hc
      simp only [List.mem_singleton] at hc
      rw [hc]
      exact digitVal_digitChar_isSome n
    · rw [natDigits_step n (by omega)] at hc
      simp only [List.mem_append, List.mem_singleton] at hc
      rcases hc with hc | hc
      · exact ih (n / 10) (by omega) c hc
      · rw [hc]
        exact digitVal_digitChar_isSome _

theorem natDigits_not_mem (n : Nat) (c : Char) (hc : digitVal c = none) : c ∉ natDigits n := by
  intro hmem
  have := natDigits_digits n c hmem
  rw [hc] at this
  cases this

theorem natDigits_ne_nil (n : Nat) : natDigits n ≠ [] := by
  by_cases h : n < 10
  · rw [natDigits_small n h]; simp
  · rw [natDigits_step n (by omega)]; simp

theorem parseUintLoop_append (l r : List Char) (x : Nat) :
    parseUintLoop (l ++ r) x =
      match parseUintLoop l x with
      | .ok y => parseUintLoop r y
      | .error k => .error k := by
  induction l generalizing x with
  | nil => simp [parseUintLoop]
  | cons c cs ih =>
    rw [List.cons_append]
    simp only [parseUintLoop]
    cases digitVal c with
    | none => rfl
    | some d =>
      simp only
      split
      · rfl
      · split
        · rfl
        · exact ih _

theorem parseUintLoop_digit (x d : Nat) (hd : d < 10) (hx : x * 10 + d < 2 ^ 64) :
    parseUintLoop [digitChar d] x = .ok (x * 10 + d) := by
  unfold parseUintLoop
  rw [digitVal_digitChar d hd]
  have h1 : ¬ (x ≥ maxUint64 / 10 + 1) := by
    unfold maxUint64; omega
  have h2 : ¬ (x * 10 + d > maxUint64) := by
    unfold maxUint64; omega
  simp only [h1, h2, if_false]
  rfl

theorem parseUintLoop_natDigits (n : Nat) (hn : n < 2 ^ 64) :
    parseUintLoop (natDigits n) 0 = .ok n := by
  induction n using Nat.strong_induction_on with
  | _ n ih =>
    by_cases h : n < 10
    · rw [natDigits_small n h, parseUintLoop_digit 0 n h (by omega)]
      simp
    · rw [natDigits_step n (by omega), parseUintLoop_append, ih (n / 10) (by omega) (by omega)]
      simp only
      rw [parseUintLoop_digit (n / 10) (n % 10) (Nat.mod_lt _ (by decide)) (by omega)]
      congr 1
      omega

theorem Atoi_Itoa (s : Int) (h0 : 0 < s) (h63 : s < 2 ^ 63) : Atoi (Itoa s) = (s, none) := by
  obtain ⟨n, rfl⟩ : ∃ n : Nat, s = (n : Int) := ⟨s.toNat, by omega⟩
  have hn : n < 2 ^ 63 := by exact_mod_cast h63
  have hItoa : (Itoa (n : Int)).data = natDigits n := by
    have hneg : ¬ ((n : Int) < 0) := by omega
    simp [Itoa, hneg]
  unfold Atoi
  rw [hItoa]
  have hne := natDigits_ne_nil n
  have hhead1 : (natDigits n).head? ≠ some '-' := fun h =>
    natDigits_not_mem n '-' (by decide) (List.mem_of_mem_head? h)
  have hhead2 : (natDigits n).head? ≠ some '+' := fun h =>
    natDigits_not_mem n '+' (by decide) (List.mem_of_mem_head? h)
  unfold parseInt parseUint
  simp only [hne, if_false, hhead1, hhead2, or_self]
  rw [parseUintLoop_natDigits n (by omega)]
  have hlt : ¬ (9223372036854775808 ≤ n) := by omega
  simp [hlt]

end strconv

/-! ## A duration expression contains no comma -/

namespace time

theorem digitVal_ne_comma (c : Char) (dgt : Nat) (h : strconv.digitVal c = some dgt) :
    c ≠ ',' := by
  intro hcc
  rw [hcc] at h
  have hn : strconv.digitVal ',' = none := by decide
  rw [hn] at h
  cases h

theorem leadingInt_keeps_comma (s : List Char) (x v : Nat) (s1 : List Char)
    (h : leadingInt s x = some (v, s1)) (hc : ',' ∈ s) : ',' ∈ s1 := by
  induction s generalizing x with
  | nil => cases hc
  | cons c cs ih =>
    simp only [leadingInt] at h
    cases hd : strconv.digitVal c with
    | none =>
      rw [hd] at h
      simp only [Option.some.injEq, Prod.mk.injEq] at h
      rw [← h.2]
      exact hc
    | some dgt =>
      rw [hd] at h
      simp only at h
      split at h
      · cases h
      · split at h
        · cases h
        · have hne : c ≠ ',' := digitVal_ne_comma c dgt hd
          have hcs : ',' ∈ cs := by
            rcases List.mem_cons.mp hc with h1 | h1
            · exact absurd h1.symm hne
            · exact h1
          exact ih _ h hcs

theorem leadingFraction_keeps_comma (s : List Char) (x : Nat) (scale : B64) (ov : Bool)
    (hc : ',' ∈ s) : ',' ∈ (leadingFraction s x scale ov).2.2 := by
  induction s generalizing x scale ov with
  | nil => cases hc
  | cons c cs ih =>
    simp only [leadingFraction]
    cases hd : strconv.digitVal c with
    | none => exact hc
    | some dgt =>
      have hne : c ≠ ',' := digitVal_ne_comma c dgt hd
      have hcs : ',' ∈ cs := by
        rcases List.mem_cons.mp hc with h1 | h1
        · exact absurd h1.symm hne
        · exact h1
      simp only
      split
      · exact ih _ _ _ hcs
      · split
        · exact ih _ _ _ hcs
        · split
          · exact ih _ _ _ hcs
          · exact ih _ _ _ hcs

theorem fraction_keeps_comma (s1 : List Char) (hc : ',' ∈ s1) : ',' ∈ (fraction s1).2.2 := by
  unfold fraction
  split
  · rename_i s2
    apply leadingFraction_keeps_comma
    rcases List.mem_cons.mp hc with h1 | h1
    · exact absurd h1 (by decide)
    · exact h1
  · exact hc

theorem unitMap_no_comma (u : List Char) (unit : Nat) (h : unitMap u = some unit) :
    ',' ∉ u := by
  unfold unitMap at h
  split at h
  · rename_i hu; rw [hu]; decide
  split at h
  · rename_i hu; rw [hu]; decide
  split at h
  · rename_i hu; rw [hu]; decide
  split at h
  · rename_i hu; rw [hu]; decide
  split at h
  · rename_i hu; rw [hu]; decide
  split at h
  · rename_i hu; rw [hu]; decide
  split at h
  · rename_i hu; rw [hu]; decide
  split at h
  · rename_i hu; rw [hu]; decide
  · cases h

theorem parseGroup_keeps_comma (orig : String) (c : Char) (cs : List Char) (v : Nat)
    (s4 : List Char) (h : parseGroup orig c cs = .ok (v, s4)) (hc : ',' ∈ c :: cs) :
    ',' ∈ s4 := by
  unfold parseGroup at h
  split at h
  · cases h
  · split at h
    · cases h
    · rename_i v0 s1 hli
      have hs1 : ',' ∈ s1 := leadingInt_keeps_comma _ _ _ _ hli hc
      have hfrac := fraction_keeps_comma s1 hs1
      simp only at h
      split at h
      · cases h
      · split at h
        · cases h
        · split at h
          · cases h
          · rename_i unit hunit
            split at h
            · cases h
            · split at h
              · cases h
              · simp only [Except.ok.injEq, Prod.mk.injEq] at h
                rw [← h.2]
                rw [← List.takeWhile_append_dropWhile (fun x => ¬ isNumChar x)
                  (fraction s1).2.2] at hfrac
                rcases List.mem_append.mp hfrac with h1 | h1
                · exact absurd h1 (unitMap_no_comma _ _ hunit)
                · exact h1

theorem parseLoop_no_comma (orig : String) (fuel : Nat) (s : List Char) (d r : Nat)
    (h : parseLoop orig fuel s d = .ok r) : ',' ∉ s := by
  induction fuel generalizing s d with
  | zero =>
    cases s with
    | nil => simp
    | cons c cs => simp [parseLoop] at h
  | succ f ih =>
    cases s with
    | nil => simp
    | cons c cs =>
      intro hc
      simp only [parseLoop] at h
      split at h
      · cases h
      · rename_i v s4 hg
        split at h
        · cases h
        · exact ih _ _ h (parseGroup_keeps_comma _ _ _ _ _ hg hc)

theorem ParseDuration_no_comma (s : String) (h : (ParseDuration s).2 = none) :
    ',' ∉ s.data := by
  intro hc
  have hbody : ',' ∈ (if s.data.head? = some '-' ∨ s.data.head? = some '+'
      then s.data.tail else s.data) := by
    split
    · rename_i hsign
      cases hdata : s.data with
      | nil => rw [hdata] at hc; cases hc
      | cons c cs =>
        rw [hdata] at hc hsign
        simp only [List.head?_cons, Option.some.injEq] at hsign
        rcases List.mem_cons.mp hc with h1 | h1
        · rcases hsign with h2 | h2
          · rw [← h1] at h2; exact absurd h2 (by decide)
          · rw [← h1] at h2; exact absurd h2 (by decide)
        · exact h1
    · exact hc
  unfold ParseDuration at h
  generalize (if s.data.head? = some '-' ∨ s.data.head? = some '+'
      then s.data.tail else s.data) = body at h hbody
  simp only at h
  split at h
  · rename_i h0
    rw [h0] at hbody
    exact absurd hbody (by decide)
  · split at h
    · cases h
    · split at h
      · cases h
      · rename_i d hloop
        exact parseLoop_no_comma _ _ _ _ _ hloop hbody

end time

/-! ## The fuel of the duration parser is never exhausted -/

namespace time

theorem leadingInt_length (s : List Char) (x v : Nat) (s1 : List Char)
    (h : leadingInt s x = some (v, s1)) : s1.length ≤ s.length := by
  induction s generalizing x with
  | nil =>
    simp only [leadingInt, Option.some.injEq, Prod.mk.injEq] at h
    rw [← h.2]
  | cons c cs ih =>
    simp only [leadingInt] at h
    cases hd : strconv.digitVal c with
    | none =>
      rw [hd] at h
      simp only [Option.some.injEq, Prod.mk.injEq] at h
      rw [← h.2]
    | some dgt =>
      rw [hd] at h
      simp only at h
      split at h
      · cases h
      · split at h
        · cases h
        · have := ih _ h
          simp only [List.length_cons]
          omega

theorem leadingFraction_length (s : List Char) (x : Nat) (scale : B64) (ov : Bool) :
    (leadingFraction s x scale ov).2.2.length ≤ s.length := by
  induction s generalizing x scale ov with
  | nil => simp [leadingFraction]
  | cons c cs ih =>
    simp only [leadingFraction]
    cases hd : strconv.digitVal c with
    | none => simp
    | some dgt =>
      simp only [List.length_cons]
      split
      · exact Nat.le_succ_of_le (ih _ _ _)
      · split
        · exact Nat.le_succ_of_le (ih _ _ _)
        · split
          · exact Nat.le_succ_of_le (ih _ _ _)
          · exact Nat.le_succ_of_le (ih _ _ _)

theorem fraction_length (s1 : List Char) : (fraction s1).2.2.length ≤ s1.length := by
  unfold fraction
  split
  · rename_i s2
    have := leadingFraction_length s2 0 (Float64.const 1 1) false
    simp only [List.length_cons]
    omega
  · exact le_refl _

theorem parseGroup_length (orig : String) (c : Char) (cs : List Char) (v : Nat)
    (s4 : List Char) (h : parseGroup orig c cs = .ok (v, s4)) :
    s4.length < (c :: cs).length := by
  unfold parseGroup at h
  split at h
  · cases h
  · split at h
    · cases h
    · rename_i v0 s1 hli
      have h1 := leadingInt_length _ _ _ _ hli
      have h2 := fraction_length s1
      simp only at h
      split at h
      · cases h
      · split at h
        · cases h
        · rename_i hu
          split at h
          · cases h
          · split at h
            · cases h
            · split at h
              · cases h
              · simp only [Except.ok.injEq, Prod.mk.injEq] at h
                rw [← h.2]
                have h3 := congrArg List.length
                  (List.takeWhile_append_dropWhile (fun x => ¬ isNumChar x) (fraction s1).2.2)
                rw [List.length_append] at h3
                have h4 : 0 < (List.takeWhile (fun x => decide ¬ isNumChar x = true)
                    (fraction s1).2.2).length := List.length_pos.mpr hu
                omega

theorem parseLoop_fuel (orig : String) (f1 f2 : Nat) (s : List Char) (d : Nat)
    (h1 : s.length ≤ f1) (h2 : s.length ≤ f2) :
    parseLoop orig f1 s d = parseLoop orig f2 s d := by
  induction f1 generalizing f2 s d with
  | zero =>
    cases s with
    | nil => cases f2 <;> rfl
    | cons c cs => simp at h1
  | succ g ih =>
    cases s with
    | nil => cases f2 <;> rfl
    | cons c cs =>
      cases f2 with
      | zero => simp at h2
      | succ g2 =>
        simp only [parseLoop]
        cases hg : parseGroup orig c cs with
        | error e => rfl
        | ok r =>
          obtain ⟨v, s4⟩ := r
          have hl := parseGroup_length orig c cs v s4 hg
          simp only [List.length_cons] at hl h1 h2
          simp only
          split
          · rfl
          · exact ih g2 s4 _ (by omega) (by omega)

end time

/-! ## Exact arithmetic -/

namespace spentcalories

theorem distance_rat (steps : Int) (height : ℚ) :
    distance steps height = (steps : ℚ) * (height * (45 / 100)) / 1000 := by
  show (steps : ℚ) * (height * (((45 : ℕ) : ℚ) / ((100 : ℕ) : ℚ)))
    / (((1000 : ℕ) : ℚ) / ((1 : ℕ) : ℚ)) = _
  norm_num

theorem hours_rat (d : time.Duration) : (time.Hours d : ℚ) = (d : ℚ) / 3600000000000 := by
  show ((Int.tdiv d 3600000000000 : Int) : ℚ) + ((Int.tmod d 3600000000000 : Int) : ℚ)
    / (((3600000000000 : ℕ) : ℚ) / ((1 : ℕ) : ℚ)) = _
  have h := Int.tdiv_add_tmod d 3600000000000
  have h2 : (d : ℚ) = (3600000000000 : ℚ) * ((Int.tdiv d 3600000000000 : Int) : ℚ)
      + ((Int.tmod d 3600000000000 : Int) : ℚ) := by
    exact_mod_cast h.symm
  rw [h2]
  field_simp
  ring

theorem eq_zero_rat (x : ℚ) : Float64.eq x zero = decide (x = 0) := by
  show decide (x = ((0 : ℕ) : ℚ) / ((1 : ℕ) : ℚ)) = decide (x = 0)
  norm_num

theorem le_zero_rat (x : ℚ) : Float64.le x zero = decide (x ≤ 0) := by
  show decide (x ≤ ((0 : ℕ) : ℚ) / ((1 : ℕ) : ℚ)) = decide (x ≤ 0)
  norm_num

theorem meanSpeed_rat (steps : Int) (height : ℚ) (d : time.Duration) (hd : 0 < d) :
    meanSpeed steps height d = distance steps height / ((d : ℚ) / 3600000000000) := by
  unfold meanSpeed
  have hne : (time.Hours d : ℚ) ≠ 0 := by
    rw [hours_rat]
    have : (0 : ℚ) < (d : ℚ) := by exact_mod_cast hd
    positivity
  have hz : Float64.eq (time.Hours d : ℚ) zero = false := by
    rw [eq_zero_rat]
    simpa using hne
  simp only [not_le.mpr hd, if_false, hz, Bool.false_eq_true]
  rw [hours_rat]

theorem meanSpeed_rat_ne_zero (steps : Int) (height : ℚ) (d : time.Duration)
    (hs : 0 < steps) (hh : 0 < height) (hd : 0 < d) :
    Float64.eq (meanSpeed steps height d) zero = false := by
  rw [eq_zero_rat, meanSpeed_rat steps height d hd, distance_rat]
  have h1 : (0 : ℚ) < (steps : ℚ) := by exact_mod_cast hs
  have h2 : (0 : ℚ) < (d : ℚ) := by exact_mod_cast hd
  have : (steps : ℚ) * (height * (45 / 100)) / 1000 / ((d : ℚ) / 3600000000000) ≠ 0 := by
    positivity
  simpa using this

end spentcalories

/-! ## The reports -/

theorem string_append_ne_empty (a b : String) (ha : a ≠ "") : a ++ b ≠ "" := by
  intro h
  apply ha
  have h1 : (a ++ b).data = [] := by rw [h]
  rw [String.data_append] at h1
  exact String.ext (List.append_eq_nil.mp h1).1

theorem Itoa_no_comma (s : Int) (h0 : 0 < s) : ',' ∉ (strconv.Itoa s).data := by
  have hneg : ¬ (s < 0) := by omega
  simp only [strconv.Itoa, hneg, if_false]
  exact strconv.natDigits_not_mem _ ',' (by decide)

theorem parsePackage_of_printed (s : Int) (ds : String) (d : time.Duration)
    (hs : 0 < s) (hs63 : s < 2 ^ 63) (hd : time.ParseDuration ds = (d, none))
    (hdpos : 0 < d) :
    daysteps.parsePackage (strconv.Itoa s ++ "," ++ ds) = (s, d, none) := by
  have hsplit : strings.Split (strconv.Itoa s ++ "," ++ ds) ',' = [strconv.Itoa s, ds] :=
    strings.split_two _ _ (Itoa_no_comma s hs)
      (time.ParseDuration_no_comma ds (by rw [hd]))
  rw [parsePackage_fields _ _ _ hsplit, strconv.Atoi_Itoa s hs hs63]
  simp only [not_le.mpr hs, if_false]
  rw [hd]
  simp only [not_le.mpr hdpos, if_false]

namespace daysteps

theorem text_steps_line {F : Type} [Float64 F] (r : Report F) :
    r.text ≠ "" ∧
    ∃ rest : String, r.text = "Количество шагов: " ++ strconv.Itoa r.steps ++ ".\n" ++ rest := by
  constructor
  · unfold Report.text
    simp only [String.append_assoc]
    exact string_append_ne_empty _ _ (by decide)
  · refine ⟨"Дистанция составила " ++ Float64.format2 r.distanceKm ++ " км.\nВы сожгли "
      ++ Float64.format2 r.calories ++ " ккал.\n", ?_⟩
    unfold Report.text
    have h : (".\nДистанция составила " : String) = ".\n" ++ "Дистанция составила " := by decide
    rw [h]
    simp only [String.append_assoc]

theorem dayReport_ok {F : Type} [Float64 F] (data : String) (weight height : F)
    (steps : Int) (duration : time.Duration) (hp : parsePackage data = (steps, duration, none))
    (hs : 0 < steps) (hd : 0 < duration)
    (hw : Float64.le weight spentcalories.zero = false)
    (hh : Float64.le height spentcalories.zero = false)
    (hv : Float64.eq (spentcalories.meanSpeed steps height duration) spentcalories.zero = false) :
    dayReport data weight height =
      .ok ⟨steps, Float64.ofInt steps * stepLength / mInKm,
        (spentcalories.WalkingSpentCalories steps weight height duration).1⟩ := by
  rw [dayReport_parsed data weight height steps duration hp,
    spentcalories.walking_ok steps weight height duration hs hw hh hd hv]

theorem dayReport_distance {F : Type} [Float64 F] (data : String) (weight height : F)
    (steps : Int) (duration : time.Duration) (hp : parsePackage data = (steps, duration, none))
    (r : Report F) (hr : dayReport data weight height = .ok r) :
    r.distanceKm = Float64.ofInt steps * stepLength / mInKm := by
  rw [dayReport_parsed data weight height steps duration hp] at hr
  rcases hw : spentcalories.WalkingSpentCalories steps weight height duration with ⟨c, _ | e⟩
  · rw [hw] at hr
    simp only [Except.ok.injEq] at hr
    rw [← hr]
  · rw [hw] at hr
    cases hr

end daysteps

namespace spentcalories

theorem trainingReport_dist {F : Type} [Float64 F] [strings.CaseTable] (data : String)
    (weight height : F) (steps : Int) (label : String) (duration : time.Duration)
    (hp : parseTraining data = (steps, label, duration, none))
    (r : Report F) (hr : trainingReport data weight height = .ok r) :
    r.dist = distance steps height := by
  unfold trainingReport at hr
  rw [hp] at hr
  simp only at hr
  split at hr
  · rcases hw : RunningSpentCalories steps weight height duration with ⟨c, _ | e⟩
    · rw [hw] at hr
      simp only [Except.ok.injEq] at hr
      rw [← hr]
    · rw [hw] at hr
      cases hr
  · split at hr
    · rcases hw : WalkingSpentCalories steps weight height duration with ⟨c, _ | e⟩
      · rw [hw] at hr
        simp only [Except.ok.injEq] at hr
        rw [← hr]
      · rw [hw] at hr
        cases hr
    · cases hr

end spentcalories

/-! ## Claims about the reports -/

/-- Witness for C4: the labels `Running` and `БЕГ` in one record. -/
theorem running_label_any_case_witness :
    (@spentcalories.TrainingInfo B64 _ strings.basicCaseTable "1000,Running,1h"
        (Float64.const 70 1) (Float64.const 18 10)).2 =
      (@spentcalories.TrainingInfo B64 _ strings.basicCaseTable "1000,БЕГ,1h"
        (Float64.const 70 1) (Float64.const 18 10)).2 :=
  (@running_label_any_case B64 _ strings.basicCaseTable "1000,Running,1h" "1000,БЕГ,1h"
    "1000" "Running" "БЕГ" "1h" (Float64.const 70 1) (Float64.const 18 10)
    (by decide) (by decide) (by decide) (by decide)).2.1

/-- C3, amended: for every positive integer `s` below `2 ^ 63` and every duration
expression read as a positive duration, `DayActionInfo` on the record made of the decimal
text of `s`, a comma and the expression returns a non-empty text whose first line is the
step count line with the decimal text of `s`, for every weight and height that pass the
guards of `WalkingSpentCalories` (not `≤ 0`) and give a mean speed that is not `0`; in
exact arithmetic these are all the positive weights and heights. -/
theorem day_report_shows_steps (s : Int) (ds : String) (d : time.Duration)
    (hs : 0 < s) (hs63 : s < 2 ^ 63) (hd : time.ParseDuration ds = (d, none))
    (hdpos : 0 < d) :
    (∀ (F : Type) [Float64 F] (weight height : F),
      Float64.le weight spentcalories.zero = false →
      Float64.le height spentcalories.zero = false →
      Float64.eq (spentcalories.meanSpeed s height d) spentcalories.zero = false →
      daysteps.DayActionInfo (strconv.Itoa s ++ "," ++ ds) weight height ≠ "" ∧
      ∃ rest : String, daysteps.DayActionInfo (strconv.Itoa s ++ "," ++ ds) weight height =
        "Количество шагов: " ++ strconv.Itoa s ++ ".\n" ++ rest) ∧
    (∀ weight height : ℚ, 0 < weight → 0 < height →
      daysteps.DayActionInfo (strconv.Itoa s ++ "," ++ ds) weight height ≠ "" ∧
      ∃ rest : String, daysteps.DayActionInfo (strconv.Itoa s ++ "," ++ ds) weight height =
        "Количество шагов: " ++ strconv.Itoa s ++ ".\n" ++ rest) := by
  have hp := parsePackage_of_printed s ds d hs hs63 hd hdpos
  have hgen : ∀ (F : Type) [Float64 F] (weight height : F),
      Float64.le weight spentcalories.zero = false →
      Float64.le height spentcalories.zero = false →
      Float64.eq (spentcalories.meanSpeed s height d) spentcalories.zero = false →
      daysteps.DayActionInfo (strconv.Itoa s ++ "," ++ ds) weight height ≠ "" ∧
      ∃ rest : String, daysteps.DayActionInfo (strconv.Itoa s ++ "," ++ ds) weight height =
        "Количество шагов: " ++ strconv.Itoa s ++ ".\n" ++ rest := by
    intro F _ weight height hw hh hv
    unfold daysteps.DayActionInfo
    rw [daysteps.dayReport_ok _ weight height s d hp hs hdpos hw hh hv]
    exact daysteps.text_steps_line _
  refine ⟨hgen, ?_⟩
  intro weight height hw hh
  refine hgen ℚ weight height ?_ ?_ (spentcalories.meanSpeed_rat_ne_zero s height d hs hh hdpos)
  · rw [spentcalories.le_zero_rat]
    simpa using hw
  · rw [spentcalories.le_zero_rat]
    simpa using hh

/-- Witness for C3: 1000 steps in `1h`, weight 70 and height 1.8 in exact arithmetic. -/
theorem day_report_shows_steps_witness :
    daysteps.DayActionInfo (strconv.Itoa 1000 ++ "," ++ "1h") (70 : ℚ) (9 / 5 : ℚ) ≠ "" ∧
    ∃ rest : String, daysteps.DayActionInfo (strconv.Itoa 1000 ++ "," ++ "1h") (70 : ℚ)
      (9 / 5 : ℚ) = "Количество шагов: " ++ strconv.Itoa 1000 ++ ".\n" ++ rest :=
  (day_report_shows_steps 1000 "1h" 3600000000000 (by decide) (by decide) (by decide)
    (by decide)).2 70 (9 / 5) (by norm_num) (by norm_num)

/-- C3 as stated fails: with the positive height `2 ^ (-1074)`, the smallest positive
binary64 number, the step length `height * 0.45` rounds to `0`, the mean speed is `0` and
`DayActionInfo` returns the empty string for the record `1000,1h`; and the decimal text of
the positive integer `2 ^ 63` is not read back by `strconv.Atoi`. -/
theorem day_report_empty_counterexample :
    (time.ParseDuration "1h" = (3600000000000, none) ∧
      strconv.Itoa 1000 ++ "," ++ "1h" = "1000,1h" ∧
      Float64.le (Float64.const 70 1 : B64) spentcalories.zero = false ∧
      Float64.le (B64.fin false 1 (-1074)) spentcalories.zero = false ∧
      Float64.le spentcalories.zero (B64.fin false 1 (-1074)) = true ∧
      daysteps.DayActionInfo "1000,1h" (Float64.const 70 1 : B64) (B64.fin false 1 (-1074))
        = "") ∧
    (strconv.Itoa (2 ^ 63) ++ "," ++ "1h" = "9223372036854775808,1h" ∧
      daysteps.DayActionInfo "9223372036854775808,1h" (Float64.const 70 1 : B64)
        (Float64.const 18 10) = "") := by
  refine ⟨⟨by decide, by decide, by decide!, by decide!, by decide!, by decide!⟩,
    by decide, by decide!⟩

/-- Witness for C9: the durations `0s` and `-1h` are rejected, `45m` is returned. -/
theorem duration_field_decides_witness :
    (daysteps.parsePackage "1000,0s").2.2 ≠ none ∧
    (spentcalories.parseTraining "1000,бег,-1h").2.2.2 ≠ none ∧
    spentcalories.parseTraining "1000,бег,45m" = (1000, "бег", 2700000000000, none) :=
  ⟨((duration_field_decides "1000,0s").1 "1000" "0s" (by decide) (by decide)
      (by decide)).1.mpr (Or.inr (by decide)),
    ((duration_field_decides "1000,бег,-1h").2 "1000" "бег" "-1h" (by decide) (by decide)
      (by decide)).1.mpr (Or.inr (by decide)),
    ((duration_field_decides "1000,бег,45m").2 "1000" "бег" "45m" (by decide) (by decide)
      (by decide)).2 (by decide)⟩

/-! ## The reports in binary64 on sample records -/

theorem sample_day_report :
    daysteps.DayActionInfo "678,0h50m" (Float64.const 75 1 : B64) (Float64.const 175 100) =
      "Количество шагов: 678.\nДистанция составила 0.44 км.\nВы сожгли 20.02 ккал.\n" ∧
    daysteps.DayActionInfo "678,0h50m" (Float64.const 75 1 : B64) (Float64.const 160 100) =
      "Количество шагов: 678.\nДистанция составила 0.44 км.\nВы сожгли 18.31 ккал.\n" := by
  constructor <;> decide!

theorem sample_training_report :
    @spentcalories.TrainingInfo B64 _ strings.basicCaseTable "3456,Ходьба,3h00m"
        (Float64.const 75 1) (Float64.const 175 100) =
      ("Тип тренировки: Ходьба\nДлительность: 3.00 ч.\nДистанция: 2.72 км.\n"
        ++ "Скорость: 0.91 км/ч\nСожгли калорий: 102.06\n", none) ∧
    @spentcalories.TrainingInfo B64 _ strings.basicCaseTable "3456,Ходьба,3h00m"
        (Float64.const 75 1) (Float64.const 160 100) =
      ("Тип тренировки: Ходьба\nДлительность: 3.00 ч.\nДистанция: 2.49 км.\n"
        ++ "Скорость: 0.83 км/ч\nСожгли калорий: 93.31\n", none) := by
  constructor <;> decide!

/-! ## The two parsers on records with the same first and last field -/

namespace strings

theorem splitChars_length (sep : Char) (l : List Char) :
    (splitChars sep l).length = l.count sep + 1 := by
  induction l with
  | nil => rfl
  | cons c cs ih =>
    unfold splitChars
    by_cases hc : c = sep
    · simp [hc, ih]
    · have hne := splitChars_ne_nil sep cs
      rcases hs : splitChars sep cs with _ | ⟨p, ps⟩
      · exact absurd hs hne
      · rw [hs] at ih
        simp only [hc, if_false, List.length_cons] at ih ⊢
        rw [List.count_cons_of_ne (Ne.symm hc)]
        exact ih

theorem split_length (s : String) : (Split s ',').length = s.data.count ',' + 1 := by
  unfold Split
  rw [List.length_map, splitChars_length]

theorem split_three (a l b : String) (ha : ',' ∉ a.data) (hl : ',' ∉ l.data)
    (hb : ',' ∉ b.data) : Split (a ++ "," ++ l ++ "," ++ b) ',' = [a, l, b] := by
  unfold Split
  have hd : (a ++ "," ++ l ++ "," ++ b).data = a.data ++ ',' :: (l.data ++ ',' :: b.data) := by
    simp [String.data_append]
  rw [hd, splitChars_append ',' _ _ ha, splitChars_append ',' _ _ hl,
    splitChars_of_not_mem ',' _ hb]
  rfl

end strings

theorem parsers_agree_aux (a b l : String) (hl : ',' ∉ l.data) :
    (∃ e1 e2, daysteps.parsePackage (a ++ "," ++ b) = (0, 0, some e1) ∧
      spentcalories.parseTraining (a ++ "," ++ l ++ "," ++ b) = (0, "", 0, some e2)) ∨
    (∃ steps duration, daysteps.parsePackage (a ++ "," ++ b) = (steps, duration, none) ∧
      spentcalories.parseTraining (a ++ "," ++ l ++ "," ++ b) = (steps, l, duration, none)) := by
  by_cases hab : ',' ∉ a.data ∧ ',' ∉ b.data
  · rw [parsePackage_fields _ a b (strings.split_two a b hab.1 hab.2),
      parseTraining_fields _ a l b (strings.split_three a l b hab.1 hl hab.2)]
    rcases strconv.Atoi a with ⟨s, _ | e⟩
    · by_cases hs : s ≤ 0
      · simp only [hs, if_true]
        exact Or.inl ⟨_, _, rfl, rfl⟩
      · simp only [hs, if_false]
        rcases time.ParseDuration b with ⟨d, _ | e⟩
        · by_cases hd : d ≤ 0
          · simp only [hd, if_true]
            exact Or.inl ⟨_, _, rfl, rfl⟩
          · simp only [hd, if_false]
            exact Or.inr ⟨s, d, rfl, rfl⟩
        · exact Or.inl ⟨_, _, rfl, rfl⟩
    · exact Or.inl ⟨_, _, rfl, rfl⟩
  · have hcount : 0 < a.data.count ',' + b.data.count ',' := by
      by_contra hzero
      apply hab
      have h0 : a.data.count ',' = 0 ∧ b.data.count ',' = 0 := by omega
      exact ⟨List.count_eq_zero.mp h0.1, List.count_eq_zero.mp h0.2⟩
    have h2 : (strings.Split (a ++ "," ++ b) ',').length ≠ 2 := by
      rw [strings.split_length]
      have hd : (a ++ "," ++ b).data = a.data ++ ',' :: b.data := by
        simp [String.data_append]
      rw [hd, List.count_append, List.count_cons_self]
      omega
    have h3 : (strings.Split (a ++ "," ++ l ++ "," ++ b) ',').length ≠ 3 := by
      rw [strings.split_length]
      have hd : (a ++ "," ++ l ++ "," ++ b).data
          = a.data ++ ',' :: (l.data ++ ',' :: b.data) := by
        simp [String.data_append]
      rw [hd, List.count_append, List.count_cons_self, List.count_append,
        List.count_cons_self]
      omega
    exact Or.inl ⟨_, _, parsePackage_length_ne _ h2, parseTraining_length_ne _ h3⟩

/-- C19: for all strings `a`, `b` and every label `l` without a comma, `parsePackage` on
`a,b` succeeds exactly when `parseTraining` on `a,l,b` succeeds, and on success both
return the same step count and the same duration, and `parseTraining` returns `l` as the
label. -/
theorem parsers_agree (a b l : String) (hl : ',' ∉ l.data) :
    ((daysteps.parsePackage (a ++ "," ++ b)).2.2 = none ↔
      (spentcalories.parseTraining (a ++ "," ++ l ++ "," ++ b)).2.2.2 = none) ∧
    ((daysteps.parsePackage (a ++ "," ++ b)).2.2 = none →
      (spentcalories.parseTraining (a ++ "," ++ l ++ "," ++ b)).1 =
        (daysteps.parsePackage (a ++ "," ++ b)).1 ∧
      (spentcalories.parseTraining (a ++ "," ++ l ++ "," ++ b)).2.2.1 =
        (daysteps.parsePackage (a ++ "," ++ b)).2.1 ∧
      (spentcalories.parseTraining (a ++ "," ++ l ++ "," ++ b)).2.1 = l) := by
  rcases parsers_agree_aux a b l hl with ⟨e1, e2, h1, h2⟩ | ⟨s, d, h1, h2⟩
  · rw [h1, h2]
    simp
  · rw [h1, h2]
    simp

/-- Witness for C19: the fields `1000` and `45m` with the label `бег`. -/
theorem parsers_agree_witness :
    daysteps.parsePackage ("1000" ++ "," ++ "45m") = (1000, 2700000000000, none) ∧
    (spentcalories.parseTraining ("1000" ++ "," ++ "бег" ++ "," ++ "45m")).1 =
      (daysteps.parsePackage ("1000" ++ "," ++ "45m")).1 ∧
    (spentcalories.parseTraining ("1000" ++ "," ++ "бег" ++ "," ++ "45m")).2.2.1 =
      (daysteps.parsePackage ("1000" ++ "," ++ "45m")).2.1 ∧
    (spentcalories.parseTraining ("1000" ++ "," ++ "бег" ++ "," ++ "45m")).2.1 = "бег" :=
  ⟨by decide, (parsers_agree "1000" "45m" "бег" (by decide)).2 (by decide)⟩

/-! ## Errors of the entry points -/

namespace spentcalories

theorem trainingReport_walking {F : Type} [Float64 F] [strings.CaseTable] (data : String)
    (weight height : F) (steps : Int) (label : String) (duration : time.Duration)
    (hp : parseTraining data = (steps, label, duration, none))
    (hl : strings.ToLower label = "ходьба" ∨ strings.ToLower label = "walking") :
    trainingReport data weight height =
      match WalkingSpentCalories steps weight height duration with
      | (_, some err) => .error err
      | (calories, none) =>
        .ok ⟨label, time.Hours duration, distance steps height,
          meanSpeed steps height duration, calories⟩ := by
  have hnot : ¬ (strings.ToLower label = "бег" ∨ strings.ToLower label = "running") := by
    rcases hl with h | h <;> rw [h] <;> decide
  unfold trainingReport
  rw [hp]
  simp only [hnot, hl, if_true, if_false]

theorem text_ne_empty {F : Type} [Float64 F] (r : Report F) : r.text ≠ "" := by
  unfold Report.text
  simp only [String.append_assoc]
  exact string_append_ne_empty _ _ (by decide)

end spentcalories

/-- C12: `TrainingInfo` returns an error exactly when the text it returns is empty; when
`parseTraining` fails, or the calorie function chosen by the label fails, the error
returned is that error.  `DayActionInfo` returns the empty string exactly when
`parsePackage` or `WalkingSpentCalories` (on the parsed steps and duration) returns an
error, and otherwise the non-empty text of a report. -/
theorem errors_reach_the_caller {F : Type} [Float64 F] [strings.CaseTable] (data : String)
    (weight height : F) :
    ((spentcalories.TrainingInfo data weight height).2 ≠ none ↔
      (spentcalories.TrainingInfo data weight height).1 = "") ∧
    (∀ e : Error, (spentcalories.parseTraining data).2.2.2 = some e →
      spentcalories.TrainingInfo data weight height = ("", some e)) ∧
    (∀ (steps : Int) (label : String) (duration : time.Duration) (e : Error),
      spentcalories.parseTraining data = (steps, label, duration, none) →
      ((strings.ToLower label = "бег" ∨ strings.ToLower label = "running") →
        (spentcalories.RunningSpentCalories steps weight height duration).2 = some e →
        spentcalories.TrainingInfo data weight height = ("", some e)) ∧
      ((strings.ToLower label = "ходьба" ∨ strings.ToLower label = "walking") →
        (spentcalories.WalkingSpentCalories steps weight height duration).2 = some e →
        spentcalories.TrainingInfo data weight height = ("", some e))) ∧
    (daysteps.DayActionInfo data weight height = "" ↔
      ((daysteps.parsePackage data).2.2 ≠ none ∨
        (spentcalories.WalkingSpentCalories (daysteps.parsePackage data).1 weight height
          (daysteps.parsePackage data).2.1).2 ≠ none)) ∧
    (daysteps.DayActionInfo data weight height ≠ "" →
      ∃ r : daysteps.Report F, daysteps.dayReport data weight height = .ok r ∧
        daysteps.DayActionInfo data weight height = r.text) := by
  refine ⟨?_, ?_, ?_, ?_, ?_⟩
  · rw [spentcalories.trainingInfo_of_report]
    cases spentcalories.trainingReport data weight height with
    | error e => simp
    | ok r =>
      simp only [ne_eq, not_true_eq_false, false_iff]
      exact spentcalories.text_ne_empty r
  · intro e he
    rw [spentcalories.trainingInfo_of_report,
      spentcalories.trainingReport_parse_error data weight height e he]
  · intro steps label duration e hp
    constructor
    · intro hl he
      rw [spentcalories.trainingInfo_of_report,
        spentcalories.trainingReport_running data weight height steps label duration hp hl]
      rcases hr : spentcalories.RunningSpentCalories steps weight height duration with
        ⟨c, _ | e2⟩
      · rw [hr] at he
        cases he
      · rw [hr] at he
        simp only [Option.some.injEq] at he
        rw [he]
    · intro hl he
      rw [spentcalories.trainingInfo_of_report,
        spentcalories.trainingReport_walking data weight height steps label duration hp hl]
      rcases hr : spentcalories.WalkingSpentCalories steps weight height duration with
        ⟨c, _ | e2⟩
      · rw [hr] at he
        cases he
      · rw [hr] at he
        simp only [Option.some.injEq] at he
        rw [he]
  · unfold daysteps.DayActionInfo
    rcases parsePackage_cases data with ⟨e, h⟩ | ⟨_, _, s, d, _, _, _, _, _, h⟩
    · rw [daysteps.dayReport_parse_error data weight height e (by rw [h]), h]
      simp
    · rw [daysteps.dayReport_parsed data weight height s d h, h]
      rcases hw : spentcalories.WalkingSpentCalories s weight height d with ⟨c, _ | e2⟩
      · simp only [ne_eq, not_true_eq_false, or_self, iff_false]
        exact (daysteps.text_steps_line _).1
      · simp
  · intro hne
    unfold daysteps.DayActionInfo at hne ⊢
    cases hr : daysteps.dayReport data weight height with
    | error e =>
      rw [hr] at hne
      exact absurd rfl hne
    | ok r => exact ⟨r, rfl, rfl⟩

/-! ## Calories in exact arithmetic -/

namespace spentcalories

theorem minutes_rat (d : time.Duration) : (time.Minutes d : ℚ) = (d : ℚ) / 60000000000 := by
  show ((Int.tdiv d 60000000000 : Int) : ℚ) + ((Int.tmod d 60000000000 : Int) : ℚ)
    / (((60000000000 : ℕ) : ℚ) / ((1 : ℕ) : ℚ)) = _
  have h := Int.tdiv_add_tmod d 60000000000
  have h2 : (d : ℚ) = (60000000000 : ℚ) * ((Int.tdiv d 60000000000 : Int) : ℚ)
      + ((Int.tmod d 60000000000 : Int) : ℚ) := by
    exact_mod_cast h.symm
  rw [h2]
  field_simp
  ring

theorem le_zero_rat_false (x : ℚ) (hx : 0 < x) : Float64.le x zero = false := by
  rw [le_zero_rat]
  simpa using hx

theorem running_rat (steps : Int) (weight height : ℚ) (d : time.Duration)
    (hs : 0 < steps) (hw : 0 < weight) (hh : 0 < height) (hd : 0 < d) :
    RunningSpentCalories steps weight height d = (weight * distance steps height, none) := by
  rw [running_ok steps weight height d hs (le_zero_rat_false weight hw)
    (le_zero_rat_false height hh) hd (meanSpeed_rat_ne_zero steps height d hs hh hd),
    meanSpeed_rat steps height d hd, minutes_rat]
  have hd0 : (d : ℚ) ≠ 0 := by
    have : (0 : ℚ) < (d : ℚ) := by exact_mod_cast hd
    exact ne_of_gt this
  congr 1
  show weight * (distance steps height / ((d : ℚ) / 3600000000000)) * ((d : ℚ) / 60000000000)
    / (((60 : ℕ) : ℚ) / ((1 : ℕ) : ℚ)) = _
  field_simp
  ring

theorem walking_rat (steps : Int) (weight height : ℚ) (d : time.Duration)
    (hs : 0 < steps) (hw : 0 < weight) (hh : 0 < height) (hd : 0 < d) :
    WalkingSpentCalories steps weight height d =
      (weight * distance steps height * (1 / 2), none) := by
  rw [walking_of_running, running_rat steps weight height d hs hw hh hd]
  show (weight * distance steps height * (((1 : ℕ) : ℚ) / ((2 : ℕ) : ℚ)), none) = _
  norm_num

end spentcalories

/-! ## Calories and distance of the daily report -/

namespace daysteps

theorem dayReport_calories {F : Type} [Float64 F] (data : String) (weight height : F)
    (steps : Int) (duration : time.Duration) (hp : parsePackage data = (steps, duration, none))
    (r : Report F) (hr : dayReport data weight height = .ok r) :
    r.calories = (spentcalories.WalkingSpentCalories steps weight height duration).1 := by
  rw [dayReport_parsed data weight height steps duration hp] at hr
  rcases hw : spentcalories.WalkingSpentCalories steps weight height duration with ⟨c, _ | e⟩
  · rw [hw] at hr
    simp only [Except.ok.injEq] at hr
    rw [← hr]
  · rw [hw] at hr
    cases hr

theorem dayReport_rat (data : String) (weight height : ℚ) (steps : Int)
    (duration : time.Duration) (hp : parsePackage data = (steps, duration, none))
    (hs : 0 < steps) (hd : 0 < duration) (hw : 0 < weight) (hh : 0 < height) :
    dayReport data weight height =
      .ok ⟨steps, (steps : ℚ) * (65 / 100) / 1000,
        weight * ((steps : ℚ) * (height * (45 / 100)) / 1000) * (1 / 2)⟩ := by
  rw [dayReport_ok data weight height steps duration hp hs hd
    (spentcalories.le_zero_rat_false weight hw) (spentcalories.le_zero_rat_false height hh)
    (spentcalories.meanSpeed_rat_ne_zero steps height duration hs hh hd),
    spentcalories.walking_rat steps weight height duration hs hw hh hd,
    spentcalories.distance_rat]
  congr 2
  show (steps : ℚ) * (((65 : ℕ) : ℚ) / ((100 : ℕ) : ℚ)) / (((1000 : ℕ) : ℚ) / ((1 : ℕ) : ℚ))
    = _
  norm_num

end daysteps

theorem parsePackage_accepts_pos (data : String) (steps : Int) (duration : time.Duration)
    (hp : daysteps.parsePackage data = (steps, duration, none)) : 0 < steps ∧ 0 < duration := by
  rcases parsePackage_cases data with ⟨e, he⟩ | ⟨_, _, s, d, _, _, hs, _, hd, he⟩
  · rw [hp] at he
    simp at he
  · rw [hp] at he
    simp only [Prod.mk.injEq, and_true] at he
    rw [he.1, he.2]
    exact ⟨hs, hd⟩

/-! ## Distance and the number of steps -/

/-- C15, amended: for every steps and height, `distance(steps, height)` is
`steps * (height * 0.45) / 1000` in the arithmetic of the program; in exact arithmetic it
is linear in the step count, `distance(2 * steps, height) = 2 * distance(steps, height)`,
and the same doubling law holds for the distance `steps * 0.65 / 1000` in the reports of
`DayActionInfo`. -/
theorem distance_formula_and_doubling :
    (∀ (F : Type) [Float64 F] (steps : Int) (height : F),
      spentcalories.distance steps height =
        Float64.ofInt steps * (height * Float64.const 45 100) / Float64.const 1000 1) ∧
    (∀ (steps : Int) (height : ℚ),
      spentcalories.distance steps height = (steps : ℚ) * (height * (45 / 100)) / 1000 ∧
      spentcalories.distance (2 * steps) height = 2 * spentcalories.distance steps height) ∧
    (∀ (data1 data2 : String) (steps : Int) (d1 d2 : time.Duration)
      (weight1 height1 weight2 height2 : ℚ) (r1 r2 : daysteps.Report ℚ),
      daysteps.parsePackage data1 = (steps, d1, none) →
      daysteps.parsePackage data2 = (2 * steps, d2, none) →
      daysteps.dayReport data1 weight1 height1 = .ok r1 →
      daysteps.dayReport data2 weight2 height2 = .ok r2 →
      r1.distanceKm = (steps : ℚ) * (65 / 100) / 1000 ∧
      r2.distanceKm = 2 * r1.distanceKm) := by
  refine ⟨fun F _ steps height => rfl, ?_, ?_⟩
  · intro steps height
    refine ⟨spentcalories.distance_rat steps height, ?_⟩
    rw [spentcalories.distance_rat, spentcalories.distance_rat]
    push_cast
    ring
  · intro data1 data2 steps d1 d2 weight1 height1 weight2 height2 r1 r2 hp1 hp2 hr1 hr2
    rw [daysteps.dayReport_distance data1 weight1 height1 steps d1 hp1 r1 hr1,
      daysteps.dayReport_distance data2 weight2 height2 (2 * steps) d2 hp2 r2 hr2]
    have hform : ∀ s : Int, (Float64.ofInt s * daysteps.stepLength / daysteps.mInKm : ℚ)
        = (s : ℚ) * (65 / 100) / 1000 := by
      intro s
      show (s : ℚ) * (((65 : ℕ) : ℚ) / ((100 : ℕ) : ℚ)) / (((1000 : ℕ) : ℚ) / ((1 : ℕ) : ℚ))
        = _
      norm_num
    rw [hform, hform]
    refine ⟨rfl, ?_⟩
    push_cast
    ring

/-- C15 as stated fails in binary64: for the positive height `1111 * 2 ^ (-1074)` the
step length rounds to `500 * 2 ^ (-1074)`; the distance of one step, half of the smallest
positive number, rounds to `0`, while the distance of two steps is the smallest positive
number, which is not twice `0`. -/
theorem distance_doubling_counterexample :
    Float64.le (B64.fin false 1111 (-1074)) spentcalories.zero = false ∧
    spentcalories.distance 1 (B64.fin false 1111 (-1074)) = B64.fin false 0 (-1074) ∧
    spentcalories.distance (2 * 1) (B64.fin false 1111 (-1074)) = B64.fin false 1 (-1074) ∧
    spentcalories.distance (2 * 1) (B64.fin false 1111 (-1074)) ≠
      (Float64.const 2 1 : B64) * spentcalories.distance 1 (B64.fin false 1111 (-1074)) := by
  refine ⟨by decide!, by decide!, by decide!, by decide!⟩

/-! ## When a training record with a known label fails -/

namespace spentcalories

theorem trainingInfo_known_error_iff {F : Type} [Float64 F] [strings.CaseTable]
    (data : String) (weight height : F) (steps : Int) (label : String)
    (duration : time.Duration) (hp : parseTraining data = (steps, label, duration, none))
    (hs : 0 < steps) (hd : 0 < duration)
    (hl : strings.ToLower label = "бег" ∨ strings.ToLower label = "running" ∨
      strings.ToLower label = "ходьба" ∨ strings.ToLower label = "walking") :
    (TrainingInfo data weight height).2 ≠ none ↔
      (Float64.le weight zero = true ∨ Float64.le height zero = true ∨
        Float64.eq (meanSpeed steps height duration) zero = true) := by
  have hbad : (steps ≤ 0 ∨ Float64.le weight zero = true ∨ Float64.le height zero = true ∨
      duration ≤ 0 ∨ Float64.eq (meanSpeed steps height duration) zero = true) ↔
      (Float64.le weight zero = true ∨ Float64.le height zero = true ∨
        Float64.eq (meanSpeed steps height duration) zero = true) := by
    simp only [not_le.mpr hs, not_le.mpr hd, false_or]
  rw [trainingInfo_of_report]
  rcases hl with h | h | h | h
  · rw [trainingReport_running data weight height steps label duration hp (Or.inl h),
      ← hbad, ← running_error_iff]
    rcases RunningSpentCalories steps weight height duration with ⟨c, _ | e⟩ <;> simp
  · rw [trainingReport_running data weight height steps label duration hp (Or.inr h),
      ← hbad, ← running_error_iff]
    rcases RunningSpentCalories steps weight height duration with ⟨c, _ | e⟩ <;> simp
  · rw [trainingReport_walking data weight height steps label duration hp (Or.inl h),
      ← hbad, ← walking_error_iff]
    rcases WalkingSpentCalories steps weight height duration with ⟨c, _ | e⟩ <;> simp
  · rw [trainingReport_walking data weight height steps label duration hp (Or.inr h),
      ← hbad, ← walking_error_iff]
    rcases WalkingSpentCalories steps weight height duration with ⟨c, _ | e⟩ <;> simp

theorem trainingInfo_ok_of_no_error {F : Type} [Float64 F] [strings.CaseTable]
    (data : String) (weight height : F)
    (h : (TrainingInfo data weight height).2 = none) :
    ∃ r : Report F, trainingReport data weight height = .ok r ∧
      TrainingInfo data weight height = (r.text, none) := by
  rw [trainingInfo_of_report] at h ⊢
  cases hr : trainingReport data weight height with
  | error e =>
    rw [hr] at h
    cases h
  | ok r => exact ⟨r, rfl, rfl⟩

end spentcalories

theorem parseTraining_accepts_pos (data : String) (steps : Int) (label : String)
    (duration : time.Duration)
    (hp : spentcalories.parseTraining data = (steps, label, duration, none)) :
    0 < steps ∧ 0 < duration := by
  rcases parseTraining_cases data with ⟨e, he⟩ | ⟨_, _, _, s, d, _, _, hs, _, hd, he⟩
  · rw [hp] at he
    simp at he
  · rw [hp] at he
    simp only [Prod.mk.injEq, and_true] at he
    rw [he.1, he.2.2]
    exact ⟨hs, hd⟩

/-- C13, amended: for a record that `parseTraining` accepts with a known activity label,
`TrainingInfo` fails exactly when weight ≤ 0, or height ≤ 0, or the computed mean speed
equals 0; in exact arithmetic the mean speed is not 0 for any positive height, so for
every positive weight and height the zero speed branch is not reached and a report is
returned. -/
theorem training_fails_only_on_guards [strings.CaseTable] (data : String) (steps : Int)
    (label : String) (duration : time.Duration)
    (hp : spentcalories.parseTraining data = (steps, label, duration, none))
    (hl : strings.ToLower label = "бег" ∨ strings.ToLower label = "running" ∨
      strings.ToLower label = "ходьба" ∨ strings.ToLower label = "walking") :
    (∀ (F : Type) [Float64 F] (weight height : F),
      ((spentcalories.TrainingInfo data weight height).2 ≠ none ↔
        (Float64.le weight spentcalories.zero = true ∨
          Float64.le height spentcalories.zero = true ∨
          Float64.eq (spentcalories.meanSpeed steps height duration) spentcalories.zero
            = true))) ∧
    (∀ weight height : ℚ, 0 < weight → 0 < height →
      Float64.eq (spentcalories.meanSpeed steps height duration) spentcalories.zero = false ∧
      ∃ r : spentcalories.Report ℚ,
        spentcalories.TrainingInfo data weight height = (r.text, none)) := by
  have hpos := parseTraining_accepts_pos data steps label duration hp
  have hgen : ∀ (F : Type) [Float64 F] (weight height : F),
      ((spentcalories.TrainingInfo data weight height).2 ≠ none ↔
        (Float64.le weight spentcalories.zero = true ∨
          Float64.le height spentcalories.zero = true ∨
          Float64.eq (spentcalories.meanSpeed steps height duration) spentcalories.zero
            = true)) := by
    intro F _ weight height
    exact spentcalories.trainingInfo_known_error_iff data weight height steps label duration
      hp hpos.1 hpos.2 hl
  refine ⟨hgen, ?_⟩
  intro weight height hw hh
  have hv := spentcalories.meanSpeed_rat_ne_zero steps height duration hpos.1 hh hpos.2
  refine ⟨hv, ?_⟩
  have hnone : (spentcalories.TrainingInfo data weight height).2 = none := by
    by_contra hne
    rcases (hgen ℚ weight height).mp hne with h | h | h
    · rw [spentcalories.le_zero_rat_false weight hw] at h
      cases h
    · rw [spentcalories.le_zero_rat_false height hh] at h
      cases h
    · rw [hv] at h
      cases h
  obtain ⟨r, _, hr⟩ := spentcalories.trainingInfo_ok_of_no_error data weight height hnone
  exact ⟨r, hr⟩

/-- Witness for C13: the record `1000,бег,1h`, weight 70 and height 1.8 in exact
arithmetic. -/
theorem training_fails_only_on_guards_witness :
    ∃ r : spentcalories.Report ℚ,
      @spentcalories.TrainingInfo ℚ _ strings.basicCaseTable "1000,бег,1h" 70 (9 / 5)
        = (r.text, none) :=
  ((@training_fails_only_on_guards strings.basicCaseTable "1000,бег,1h" 1000 "бег"
    3600000000000 (by decide) (by decide)).2 70 (9 / 5) (by norm_num) (by norm_num)).2

/-- C13 as stated fails in binary64: the record `1000,бег,1h` is accepted and its label is
known, the weight 70 and the height `2 ^ (-1074)` are positive, and `TrainingInfo` fails
with the zero speed error of `RunningSpentCalories`. -/
theorem training_zero_speed_counterexample :
    spentcalories.parseTraining "1000,бег,1h" = (1000, "бег", 3600000000000, none) ∧
    Float64.le (Float64.const 70 1 : B64) spentcalories.zero = false ∧
    Float64.le (B64.fin false 1 (-1074)) spentcalories.zero = false ∧
    Float64.le spentcalories.zero (B64.fin false 1 (-1074)) = true ∧
    @spentcalories.TrainingInfo B64 _ strings.basicCaseTable "1000,бег,1h"
        (Float64.const 70 1) (B64.fin false 1 (-1074)) =
      ("", some (fmt.Errorf "невозможно вычислить скорость")) := by
  refine ⟨by decide, by decide!, by decide!, by decide!, by decide!⟩

/-! ## The lines of a training report -/

theorem not_mem_data_append (c : Char) (a b : String) (ha : c ∉ a.data) (hb : c ∉ b.data) :
    c ∉ (a ++ b).data := by
  rw [String.data_append, List.mem_append]
  exact fun h => h.elim ha hb

theorem hundredthsText_no_newline (q : Nat) : '\n' ∉ (hundredthsText q).data := by
  unfold hundredthsText
  simp only [List.mem_append, List.mem_cons, List.mem_singleton, List.not_mem_nil, or_false,
    not_or]
  have hd : ∀ k : Nat, '\n' ≠ strconv.digitChar k := by
    intro k hk
    have := strconv.digitVal_digitChar_isSome k
    rw [← hk] at this
    exact absurd this (by decide)
  exact ⟨strconv.natDigits_not_mem _ '\n' (by decide), by decide, hd _, hd _⟩

theorem format2_no_newline_b64 (x : B64) : '\n' ∉ (Float64.format2 x).data := by
  show '\n' ∉ (B64.format2 x).data
  unfold B64.format2
  cases x with
  | nan => decide
  | inf s => cases s <;> decide
  | fin s m e =>
    simp only
    split
    · exact not_mem_data_append _ _ _ (by decide) (hundredthsText_no_newline _)
    · exact hundredthsText_no_newline _

theorem format2_no_newline_rat (x : ℚ) : '\n' ∉ (Float64.format2 x).data := by
  show '\n' ∉ (if x < 0 then "-" ++ hundredthsText (roundHalfEven (x.num.natAbs * 100) x.den)
    else hundredthsText (roundHalfEven (x.num.natAbs * 100) x.den)).data
  split
  · exact not_mem_data_append _ _ _ (by decide) (hundredthsText_no_newline _)
  · exact hundredthsText_no_newline _

namespace strings

theorem split_five_lines (a b c d e : String) (ha : '\n' ∉ a.data) (hb : '\n' ∉ b.data)
    (hc : '\n' ∉ c.data) (hd : '\n' ∉ d.data) (he : '\n' ∉ e.data) :
    Split (a ++ "\n" ++ (b ++ "\n") ++ (c ++ "\n") ++ (d ++ "\n") ++ (e ++ "\n")) '\n'
      = [a, b, c, d, e, ""] := by
  unfold Split
  have hdata : (a ++ "\n" ++ (b ++ "\n") ++ (c ++ "\n") ++ (d ++ "\n") ++ (e ++ "\n")).data
      = a.data ++ '\n' :: (b.data ++ '\n' :: (c.data ++ '\n' :: (d.data ++ '\n' ::
          (e.data ++ '\n' :: [])))) := by
    simp [String.data_append]
  rw [hdata, splitChars_append _ _ _ ha, splitChars_append _ _ _ hb,
    splitChars_append _ _ _ hc, splitChars_append _ _ _ hd, splitChars_append _ _ _ he]
  rfl

theorem toLower_newline [CaseTable] (label : String) (hnl : CaseTable.lower '\n' = '\n')
    (h : '\n' ∈ label.data) : '\n' ∈ (ToLower label).data := by
  unfold ToLower
  simp only [List.mem_map]
  exact ⟨'\n', h, hnl⟩

end strings

namespace spentcalories

theorem trainingReport_fields {F : Type} [Float64 F] [strings.CaseTable] (data : String)
    (weight height : F) (steps : Int) (label : String) (duration : time.Duration)
    (hp : parseTraining data = (steps, label, duration, none))
    (r : Report F) (hr : trainingReport data weight height = .ok r) :
    (strings.ToLower label = "бег" ∨ strings.ToLower label = "running" ∨
      strings.ToLower label = "ходьба" ∨ strings.ToLower label = "walking") ∧
    r.activityType = label ∧ r.hours = time.Hours duration ∧
    r.dist = distance steps height ∧ r.speed = meanSpeed steps height duration := by
  unfold trainingReport at hr
  rw [hp] at hr
  simp only at hr
  split at hr
  · rename_i hl
    rcases hw : RunningSpentCalories steps weight height duration with ⟨c, _ | e⟩
    · rw [hw] at hr
      simp only [Except.ok.injEq] at hr
      rw [← hr]
      exact ⟨by tauto, rfl, rfl, rfl, rfl⟩
    · rw [hw] at hr
      cases hr
  · split at hr
    · rename_i hl
      rcases hw : WalkingSpentCalories steps weight height duration with ⟨c, _ | e⟩
      · rw [hw] at hr
        simp only [Except.ok.injEq] at hr
        rw [← hr]
        exact ⟨by tauto, rfl, rfl, rfl, rfl⟩
      · rw [hw] at hr
        cases hr
    · cases hr

theorem text_lines {F : Type} [Float64 F] (r : Report F) :
    r.text = "Тип тренировки: " ++ r.activityType ++ "\n"
      ++ ("Длительность: " ++ Float64.format2 r.hours ++ " ч." ++ "\n")
      ++ ("Дистанция: " ++ Float64.format2 r.dist ++ " км." ++ "\n")
      ++ ("Скорость: " ++ Float64.format2 r.speed ++ " км/ч" ++ "\n")
      ++ ("Сожгли калорий: " ++ Float64.format2 r.calories ++ "\n") := by
  unfold Report.text
  have e1 : (" ч.\n" : String) = " ч." ++ "\n" := by decide
  have e2 : (" км.\n" : String) = " км." ++ "\n" := by decide
  have e3 : (" км/ч\n" : String) = " км/ч" ++ "\n" := by decide
  rw [e1, e2, e3]
  simp only [String.append_assoc]

end spentcalories

/-- C14: when `TrainingInfo` succeeds on a record with the fields `p0`, `p1`, `p2`, the
text it returns splits at the line ends into exactly five lines followed by nothing, in
the order activity label, duration in hours, distance, speed, calories, and the first
line carries the label `p1` as it stands in the record.  The runtime is assumed to print
no line end for `%.2f` and to leave the line end character unchanged in lower case. -/
theorem training_report_five_lines {F : Type} [Float64 F] [strings.CaseTable]
    (data p0 p1 p2 : String) (weight height : F) (text : String)
    (hsplit : strings.Split data ',' = [p0, p1, p2])
    (hfmt : ∀ x : F, '\n' ∉ (Float64.format2 x).data)
    (hnl : strings.CaseTable.lower '\n' = '\n')
    (hok : spentcalories.TrainingInfo data weight height = (text, none)) :
    ∃ r : spentcalories.Report F,
      spentcalories.trainingReport data weight height = .ok r ∧
      r.activityType = p1 ∧
      r.hours = time.Hours (spentcalories.parseTraining data).2.2.1 ∧
      r.dist = spentcalories.distance (spentcalories.parseTraining data).1 height ∧
      r.speed = spentcalories.meanSpeed (spentcalories.parseTraining data).1 height
        (spentcalories.parseTraining data).2.2.1 ∧
      strings.Split text '\n' =
        ["Тип тренировки: " ++ p1,
          "Длительность: " ++ Float64.format2 r.hours ++ " ч.",
          "Дистанция: " ++ Float64.format2 r.dist ++ " км.",
          "Скорость: " ++ Float64.format2 r.speed ++ " км/ч",
          "Сожгли калорий: " ++ Float64.format2 r.calories,
          ""] := by
  obtain ⟨r, hr, htext⟩ := spentcalories.trainingInfo_ok_of_no_error data weight height
    (by rw [hok])
  rw [hok] at htext
  simp only [Prod.mk.injEq, and_true] at htext
  have hparse : ∃ steps duration,
      spentcalories.parseTraining data = (steps, p1, duration, none) := by
    rcases parseTraining_cases data with ⟨e, he⟩ | ⟨q0, q1, q2, s, d, hs, _, _, _, _, he⟩
    · rw [spentcalories.trainingReport_parse_error data weight height e (by rw [he])] at hr
      cases hr
    · rw [hsplit] at hs
      simp only [List.cons.injEq, and_true] at hs
      rw [← hs.2.1] at he
      exact ⟨s, d, he⟩
  obtain ⟨steps, duration, hp⟩ := hparse
  obtain ⟨hl, hact, hhours, hdist, hspeed⟩ :=
    spentcalories.trainingReport_fields data weight height steps p1 duration hp r hr
  have hlabel : '\n' ∉ p1.data := by
    intro hmem
    have hlow := strings.toLower_newline p1 hnl hmem
    rcases hl with h | h | h | h <;> rw [h] at hlow <;> exact absurd hlow (by decide)
  refine ⟨r, hr, hact, ?_, ?_, ?_, ?_⟩
  · rw [hp]; exact hhours
  · rw [hp]; exact hdist
  · rw [hp]; exact hspeed
  · rw [htext, spentcalories.text_lines, hact]
    exact strings.split_five_lines _ _ _ _ _
      (not_mem_data_append _ _ _ (by decide) hlabel)
      (not_mem_data_append _ _ _ (not_mem_data_append _ _ _ (by decide) (hfmt _)) (by decide))
      (not_mem_data_append _ _ _ (not_mem_data_append _ _ _ (by decide) (hfmt _)) (by decide))
      (not_mem_data_append _ _ _ (not_mem_data_append _ _ _ (by decide) (hfmt _)) (by decide))
      (not_mem_data_append _ _ _ (by decide) (hfmt _))

/-- Witness for C14: the record `1000,Бег,1h` in binary64, whose label keeps its capital
letter in the report. -/
theorem training_report_five_lines_witness :
    ∃ r : spentcalories.Report B64,
      @spentcalories.trainingReport B64 _ strings.basicCaseTable "1000,Бег,1h"
        (Float64.const 70 1) (Float64.const 18 10) = .ok r ∧
      r.activityType = "Бег" ∧
      strings.Split ("Тип тренировки: Бег\nДлительность: 1.00 ч.\nДистанция: 0.81 км.\n"
          ++ "Скорость: 0.81 км/ч\nСожгли калорий: 56.70\n") '\n' =
        ["Тип тренировки: " ++ "Бег",
          "Длительность: " ++ Float64.format2 r.hours ++ " ч.",
          "Дистанция: " ++ Float64.format2 r.dist ++ " км.",
          "Скорость: " ++ Float64.format2 r.speed ++ " км/ч",
          "Сожгли калорий: " ++ Float64.format2 r.calories,
          ""] := by
  obtain ⟨r, h1, h2, _, _, _, h6⟩ := @training_report_five_lines B64 _ strings.basicCaseTable
    "1000,Бег,1h" "1000" "Бег" "1h" (Float64.const 70 1) (Float64.const 18 10)
    ("Тип тренировки: Бег\nДлительность: 1.00 ч.\nДистанция: 0.81 км.\n"
      ++ "Скорость: 0.81 км/ч\nСожгли калорий: 56.70\n")
    (by decide) format2_no_newline_b64 (by decide) (by decide!)
  exact ⟨r, h1, h2, h6⟩

/-! ## Rounding to binary64 keeps a number away from zero -/

theorem pow2_pos (x : Int) : 0 < pow2 x := by
  unfold pow2
  exact pow_pos (by decide) _

theorem pow2_mono (x y : Int) (h : x ≤ y) : pow2 x ≤ pow2 y := by
  unfold pow2
  exact Nat.pow_le_pow_right (by decide) (Int.toNat_le_toNat h)

theorem pow2_of_nonpos (x : Int) (h : x ≤ 0) : pow2 x = 1 := by
  unfold pow2
  have h0 : x.toNat = 0 := by omega
  rw [h0]
  rfl

theorem bitLenAux_bounds (fuel n : Nat) (hn : 0 < n) (hf : n ≤ fuel) :
    ∃ k, bitLenAux fuel n = k + 1 ∧ 2 ^ k ≤ n ∧ n < 2 ^ (k + 1) := by
  induction fuel generalizing n with
  | zero => omega
  | succ f ih =>
    unfold bitLenAux
    simp only [Nat.pos_iff_ne_zero.mp hn, if_false]
    by_cases h1 : n / 2 = 0
    · refine ⟨0, ?_, ?_, ?_⟩
      · rw [h1]
        cases f <;> simp [bitLenAux]
      · simpa using hn
      · have : n < 2 := by omega
        simpa using this
    · obtain ⟨k, hk, hlo, hhi⟩ := ih (n / 2) (Nat.pos_of_ne_zero h1) (by omega)
      refine ⟨k + 1, by rw [hk], ?_, ?_⟩
      · rw [pow_succ]
        omega
      · rw [pow_succ]
        omega

theorem bitLen_bounds (n : Nat) (hn : 0 < n) :
    ∃ k, bitLen n = k + 1 ∧ 2 ^ k ≤ n ∧ n < 2 ^ (k + 1) :=
  bitLenAux_bounds n n hn (le_refl n)

theorem roundHalfEven_pos (n d : Nat) (hd : 0 < d) (h : d ≤ n) : 0 < roundHalfEven n d := by
  unfold roundHalfEven
  have hq : 0 < n / d := Nat.div_pos h hd
  simp only
  split <;> omega

/-- The binary exponent chosen by `B64.round` is not above the number: `n / d` is at
least `2 ^ (bitLen n - bitLen d - 1)`. -/
theorem ratio_ge_pow2 (n d : Nat) (hn : 0 < n) (hd : 0 < d) :
    d * pow2 ((bitLen n : Int) - (bitLen d : Int) - 1)
      ≤ n * pow2 (- ((bitLen n : Int) - (bitLen d : Int) - 1)) := by
  obtain ⟨a, ha, halo, _⟩ := bitLen_bounds n hn
  obtain ⟨b, hb, _, hbhi⟩ := bitLen_bounds d hd
  rw [ha, hb]
  by_cases hab : b + 1 ≤ a
  · have e1 : pow2 (((a + 1 : Nat) : Int) - ((b + 1 : Nat) : Int) - 1) = 2 ^ (a - b - 1) := by
      unfold pow2
      congr 1
      omega
    have e2 : pow2 (- (((a + 1 : Nat) : Int) - ((b + 1 : Nat) : Int) - 1)) = 1 :=
      pow2_of_nonpos _ (by omega)
    rw [e1, e2, Nat.mul_one]
    have h3 : 2 ^ (b + 1) * 2 ^ (a - b - 1) = 2 ^ a := by
      rw [← pow_add]
      congr 1
      omega
    have h4 : d * 2 ^ (a - b - 1) ≤ 2 ^ (b + 1) * 2 ^ (a - b - 1) :=
      Nat.mul_le_mul_right _ (Nat.le_of_lt hbhi)
    omega
  · have e1 : pow2 (((a + 1 : Nat) : Int) - ((b + 1 : Nat) : Int) - 1) = 1 :=
      pow2_of_nonpos _ (by omega)
    have e2 : pow2 (- (((a + 1 : Nat) : Int) - ((b + 1 : Nat) : Int) - 1))
        = 2 ^ (b + 1 - a) := by
      unfold pow2
      congr 1
      omega
    rw [e1, e2, Nat.mul_one]
    have h3 : 2 ^ a * 2 ^ (b + 1 - a) = 2 ^ (b + 1) := by
      rw [← pow_add]
      congr 1
      omega
    have h4 : 2 ^ a * 2 ^ (b + 1 - a) ≤ n * 2 ^ (b + 1 - a) :=
      Nat.mul_le_mul_right _ halo
    omega

theorem ratio_ge_mono (n d : Nat) (x y : Int) (hxy : y ≤ x)
    (h : d * pow2 x ≤ n * pow2 (-x)) : d * pow2 y ≤ n * pow2 (-y) :=
  le_trans (Nat.mul_le_mul_left d (pow2_mono y x hxy))
    (le_trans h (Nat.mul_le_mul_left n (pow2_mono (-x) (-y) (by omega))))

namespace B64

/-- A number of at least `2 ^ (-1074)` does not round to zero: `round` returns an
infinity or a finite number with a positive mantissa, whose exponent is at least `-1074`
and at least `bitLen n - bitLen d - 53`. -/
theorem round_pos (neg : Bool) (n d : Nat) (hn : 0 < n) (hd : 0 < d)
    (hmin : d ≤ n * 2 ^ 1074) :
    round neg n d = inf neg ∨
    ∃ m e, round neg n d = fin neg m e ∧ 0 < m ∧ -1074 ≤ e ∧
      (bitLen n : Int) - (bitLen d : Int) - 53 ≤ e := by
  have hl : ∀ l : Int, (l = (bitLen n : Int) - (bitLen d : Int) ∧
        d * pow2 l ≤ n * pow2 (-l)) ∨ l = (bitLen n : Int) - (bitLen d : Int) - 1 →
      d * pow2 l ≤ n * pow2 (-l) := by
    intro l hcase
    rcases hcase with ⟨_, h⟩ | h
    · exact h
    · rw [h]
      exact ratio_ge_pow2 n d hn hd
  have hmain : ∀ l : Int, d * pow2 l ≤ n * pow2 (-l) →
      (bitLen n : Int) - (bitLen d : Int) - 1 ≤ l →
      ((if (if roundHalfEven (n * pow2 (- (max (l - 52) (-1074)))) (d * pow2 (max (l - 52) (-1074)))
            = 2 ^ 53 then max (l - 52) (-1074) + 1 else max (l - 52) (-1074)) > 971
        then inf neg
        else fin neg
          (if roundHalfEven (n * pow2 (- (max (l - 52) (-1074)))) (d * pow2 (max (l - 52) (-1074)))
            = 2 ^ 53 then 2 ^ 52
           else roundHalfEven (n * pow2 (- (max (l - 52) (-1074))))
            (d * pow2 (max (l - 52) (-1074))))
          (if roundHalfEven (n * pow2 (- (max (l - 52) (-1074)))) (d * pow2 (max (l - 52) (-1074)))
            = 2 ^ 53 then max (l - 52) (-1074) + 1 else max (l - 52) (-1074))) = inf neg ∨
      ∃ m e, (if (if roundHalfEven (n * pow2 (- (max (l - 52) (-1074))))
            (d * pow2 (max (l - 52) (-1074)))
            = 2 ^ 53 then max (l - 52) (-1074) + 1 else max (l - 52) (-1074)) > 971
        then inf neg
        else fin neg
          (if roundHalfEven (n * pow2 (- (max (l - 52) (-1074)))) (d * pow2 (max (l - 52) (-1074)))
            = 2 ^ 53 then 2 ^ 52
           else roundHalfEven (n * pow2 (- (max (l - 52) (-1074))))
            (d * pow2 (max (l - 52) (-1074))))
          (if roundHalfEven (n * pow2 (- (max (l - 52) (-1074)))) (d * pow2 (max (l - 52) (-1074)))
            = 2 ^ 53 then max (l - 52) (-1074) + 1 else max (l - 52) (-1074))) = fin neg m e ∧
        0 < m ∧ -1074 ≤ e ∧ (bitLen n : Int) - (bitLen d : Int) - 53 ≤ e) := by
    intro l hA hlow
    have hAe : d * pow2 (max (l - 52) (-1074)) ≤ n * pow2 (- (max (l - 52) (-1074))) := by
      by_cases hcase : -1074 ≤ l - 52
      · rw [max_eq_left hcase]
        exact ratio_ge_mono n d l (l - 52) (by omega) hA
      · rw [max_eq_right (by omega)]
        rw [pow2_of_nonpos (-1074) (by decide)]
        have : pow2 (- (-1074 : Int)) = 2 ^ 1074 := rfl
        rw [this]
        omega
    have hq := roundHalfEven_pos _ _ (Nat.mul_pos hd (pow2_pos _)) hAe
    generalize roundHalfEven (n * pow2 (- (max (l - 52) (-1074))))
      (d * pow2 (max (l - 52) (-1074))) = q at hq ⊢
    have he : -1074 ≤ max (l - 52) (-1074) := le_max_right _ _
    have he2 : l - 52 ≤ max (l - 52) (-1074) := le_max_left _ _
    generalize max (l - 52) (-1074) = e at he he2 ⊢
    by_cases hq53 : q = 2 ^ 53
    · simp only [hq53, if_true]
      by_cases hbig : e + 1 > 971
      · left
        simp only [hbig, if_true]
      · right
        simp only [hbig, if_false]
        exact ⟨2 ^ 52, e + 1, rfl, by decide, by omega, by omega⟩
    · simp only [hq53, if_false]
      by_cases hbig : e > 971
      · left
        simp only [hbig, if_true]
      · right
        simp only [hbig, if_false]
        exact ⟨q, e, rfl, hq, he, by omega⟩
  unfold round
  simp only [Nat.pos_iff_ne_zero.mp hn, if_false]
  by_cases hcond : d * pow2 ((bitLen n : Int) - (bitLen d : Int))
      ≤ n * pow2 (- ((bitLen n : Int) - (bitLen d : Int)))
  · simp only [hcond, if_true]
    exact hmain _ (hl _ (Or.inl ⟨rfl, hcond⟩)) (by omega)
  · simp only [hcond, if_false]
    exact hmain _ (hl _ (Or.inr rfl)) (by omega)

end B64

/-! ## The duration in hours is not zero in binary64 -/

namespace B64

theorem eq_zero_of_pos (x : B64)
    (hx : x = inf false ∨ ∃ m e, x = fin false m e ∧ 0 < m ∧ -1074 ≤ e) :
    Float64.eq x (spentcalories.zero : B64) = false := by
  show B64.eq x (fin false 0 (-1074)) = false
  rcases hx with h | ⟨m, e, h, hm, _⟩
  · rw [h]
    rfl
  · rw [h]
    unfold B64.eq
    simp only [signed, Bool.false_eq_true, if_false, Nat.zero_mul, Nat.cast_zero,
      decide_eq_false_iff_not]
    intro h0
    have hp := pow2_pos (e - min e (-1074))
    have : m * pow2 (e - min e (-1074)) = 0 := by exact_mod_cast h0
    rcases Nat.mul_eq_zero.mp this with h1 | h1 <;> omega

theorem ofInt_zero : (Float64.ofInt 0 : B64) = fin false 0 (-1074) := by decide

theorem ofInt_pos (i : Int) (hi : 0 < i) :
    (Float64.ofInt i : B64) = inf false ∨
    ∃ m e, (Float64.ofInt i : B64) = fin false m e ∧ 0 < m ∧ -53 ≤ e := by
  show round (decide (i < 0)) i.natAbs 1 = inf false ∨
    ∃ m e, round (decide (i < 0)) i.natAbs 1 = fin false m e ∧ 0 < m ∧ -53 ≤ e
  have hneg : decide (i < 0) = false := by
    simp only [decide_eq_false_iff_not]
    omega
  rw [hneg]
  have hn : 0 < i.natAbs := by omega
  obtain ⟨k, hk, _, _⟩ := bitLen_bounds i.natAbs hn
  have h1 : bitLen 1 = 1 := by decide
  rcases round_pos false i.natAbs 1 hn (by decide)
    (Nat.mul_pos hn (pow_pos (by decide) _)) with h | ⟨m, e, h, hm, _, he⟩
  · exact Or.inl h
  · refine Or.inr ⟨m, e, h, hm, ?_⟩
    rw [hk, h1] at he
    omega

theorem pow2_le_of_le (x : Int) (k : Nat) (h : x ≤ (k : Int)) : pow2 x ≤ 2 ^ k := by
  have h1 := pow2_mono x (k : Int) h
  have h2 : pow2 (k : Int) = 2 ^ k := by
    unfold pow2
    simp
  rw [h2] at h1
  exact h1

theorem div_hour_pos (x : B64)
    (hx : x = inf false ∨ ∃ m e, x = fin false m e ∧ 0 < m ∧ -53 ≤ e) :
    div x (fin false 7372800000000000 (-11)) = inf false ∨
    ∃ m e, div x (fin false 7372800000000000 (-11)) = fin false m e ∧ 0 < m ∧ -1074 ≤ e := by
  rcases hx with h | ⟨m, e, h, hm, he⟩
  · rw [h]
    exact Or.inl rfl
  · rw [h]
    unfold div
    simp only [show (7372800000000000 : Nat) ≠ 0 by decide, if_false, Bool.xor_false]
    have hp1 := pow2_pos (e - -11)
    have hp2 : pow2 (-11 - e) ≤ 2 ^ 42 := pow2_le_of_le _ 42 (by omega)
    have hbig : (2 : Nat) ^ 95 ≤ 2 ^ 1074 := Nat.pow_le_pow_right (by decide) (by decide)
    have h95 : 7372800000000000 * pow2 (-11 - e) ≤ 2 ^ 95 := by
      calc 7372800000000000 * pow2 (-11 - e) ≤ 2 ^ 53 * 2 ^ 42 :=
            Nat.mul_le_mul (by decide) hp2
        _ = 2 ^ 95 := by rw [← pow_add]
    have hn : 0 < m * pow2 (e - -11) := Nat.mul_pos hm hp1
    rcases round_pos false (m * pow2 (e - -11)) (7372800000000000 * pow2 (-11 - e)) hn
      (Nat.mul_pos (by decide) (pow2_pos _))
      (le_trans h95 (le_trans hbig (Nat.le_mul_of_pos_left _ hn)))
      with h2 | ⟨m2, e2, h2, hm2, he2, _⟩
    · exact Or.inl h2
    · exact Or.inr ⟨m2, e2, h2, hm2, he2⟩

theorem div_hour_zero :
    div (fin false 0 (-1074)) (fin false 7372800000000000 (-11)) = fin false 0 (-1074) := by
  decide

theorem add_pos (a b : B64)
    (ha : a = inf false ∨ ∃ m e, a = fin false m e ∧ -1074 ≤ e)
    (hb : b = inf false ∨ ∃ m e, b = fin false m e ∧ -1074 ≤ e)
    (hab : (a = inf false ∨ ∃ m e, a = fin false m e ∧ 0 < m) ∨
      (b = inf false ∨ ∃ m e, b = fin false m e ∧ 0 < m)) :
    add a b = inf false ∨ ∃ m e, add a b = fin false m e ∧ 0 < m ∧ -1074 ≤ e := by
  rcases ha with ha | ⟨m, e, ha, he⟩
  · rw [ha]
    rcases hb with hb | ⟨m1, e1, hb, _⟩
    · rw [hb]
      exact Or.inl rfl
    · rw [hb]
      exact Or.inl rfl
  · rcases hb with hb | ⟨m1, e1, hb, he1⟩
    · rw [ha, hb]
      exact Or.inl rfl
    · have hsum : 0 < m + m1 := by
        rcases hab with h | h
        · rcases h with h | ⟨m2, e2, h, hm2⟩
          · rw [ha] at h
            cases h
          · rw [ha] at h
            simp only [fin.injEq, true_and] at h
            omega
        · rcases h with h | ⟨m2, e2, h, hm2⟩
          · rw [hb] at h
            cases h
          · rw [hb] at h
            simp only [fin.injEq, true_and] at h
            omega
      rw [ha, hb]
      unfold add
      simp only [signed, Bool.false_eq_true, if_false, Bool.and_self]
      have hp1 := pow2_pos (e - min e e1)
      have hp2 := pow2_pos (e1 - min e e1)
      have hnat : 0 < m * pow2 (e - min e e1) + m1 * pow2 (e1 - min e e1) := by
        rcases Nat.eq_zero_or_pos m with hm0 | hm0
        · have : 0 < m1 := by omega
          exact Nat.add_pos_right _ (Nat.mul_pos this hp2)
        · exact Nat.add_pos_left (Nat.mul_pos hm0 hp1) _
      have hint : (0 : Int) < ((m * pow2 (e - min e e1) : Nat) : Int)
          + ((m1 * pow2 (e1 - min e e1) : Nat) : Int) := by exact_mod_cast hnat
      have hne : ¬ (((m * pow2 (e - min e e1) : Nat) : Int)
          + ((m1 * pow2 (e1 - min e e1) : Nat) : Int) = 0) := by omega
      have hnneg : decide (((m * pow2 (e - min e e1) : Nat) : Int)
          + ((m1 * pow2 (e1 - min e e1) : Nat) : Int) < 0) = false := by
        simp only [decide_eq_false_iff_not]
        omega
      simp only [hne, if_false, hnneg]
      have habs : 0 < (((m * pow2 (e - min e e1) : Nat) : Int)
          + ((m1 * pow2 (e1 - min e e1) : Nat) : Int)).natAbs := by omega
      have hn : 0 < (((m * pow2 (e - min e e1) : Nat) : Int)
          + ((m1 * pow2 (e1 - min e e1) : Nat) : Int)).natAbs * pow2 (min e e1) :=
        Nat.mul_pos habs (pow2_pos _)
      have hd : pow2 (- min e e1) ≤ 2 ^ 1074 := pow2_le_of_le _ 1074 (by omega)
      rcases round_pos false _ (pow2 (- min e e1)) hn (pow2_pos _)
        (le_trans hd (Nat.le_mul_of_pos_left _ hn)) with h2 | ⟨m2, e2, h2, hm2, he2, _⟩
      · exact Or.inl h2
      · exact Or.inr ⟨m2, e2, h2, hm2, he2⟩

end B64

theorem hours_b64_ne_zero (d : Int) (hd : 0 < d) :
    Float64.eq (time.Hours d : B64) spentcalories.zero = false := by
  apply B64.eq_zero_of_pos
  have hH : (time.Hours d : B64) = B64.add (Float64.ofInt (Int.tdiv d 3600000000000))
      (B64.div (Float64.ofInt (Int.tmod d 3600000000000))
        (Float64.const 3600000000000 1)) := rfl
  rw [hH]
  have hc : (Float64.const 3600000000000 1 : B64) = B64.fin false 7372800000000000 (-11) := by
    decide
  rw [hc]
  have hq : 0 ≤ Int.tdiv d 3600000000000 := Int.tdiv_nonneg (le_of_lt hd) (by decide)
  have hr : 0 ≤ Int.tmod d 3600000000000 := Int.tmod_nonneg _ (le_of_lt hd)
  have hsum := Int.tdiv_add_tmod d 3600000000000
  have ha : (Float64.ofInt (Int.tdiv d 3600000000000) : B64) = B64.inf false ∨
      ∃ m e, (Float64.ofInt (Int.tdiv d 3600000000000) : B64) = B64.fin false m e
        ∧ -1074 ≤ e := by
    rcases eq_or_lt_of_le hq with h0 | hpos
    · rw [← h0]
      exact Or.inr ⟨0, -1074, B64.ofInt_zero, le_refl _⟩
    · rcases B64.ofInt_pos _ hpos with h | ⟨m, e, h, _, he⟩
      · exact Or.inl h
      · exact Or.inr ⟨m, e, h, by omega⟩
  rcases eq_or_lt_of_le hr with h0 | hpos
  · have hqpos : 0 < Int.tdiv d 3600000000000 := by
      rw [← h0] at hsum
      omega
    rw [← h0, B64.ofInt_zero, B64.div_hour_zero]
    apply B64.add_pos _ _ ha (Or.inr ⟨0, -1074, rfl, le_refl _⟩)
    left
    rcases B64.ofInt_pos _ hqpos with h | ⟨m, e, h, hm, _⟩
    · exact Or.inl h
    · exact Or.inr ⟨m, e, h, hm⟩
  · have hb := B64.div_hour_pos _ (B64.ofInt_pos _ hpos)
    apply B64.add_pos _ _ ha
    · rcases hb with h | ⟨m, e, h, _, he⟩
      · exact Or.inl h
      · exact Or.inr ⟨m, e, h, he⟩
    · right
      rcases hb with h | ⟨m, e, h, hm, _⟩
      · exact Or.inl h
      · exact Or.inr ⟨m, e, h, hm⟩

/-- C16: for every steps and height, `meanSpeed(steps, height, duration)` is `0` when the
duration is zero or negative (a plain value, the function returns no error), and for a
positive duration it is `distance(steps, height)` divided by the duration in hours: in
every arithmetic in which the hours are not `0`, which holds in binary64 and in exact
arithmetic for every positive duration. -/
theorem mean_speed_is_distance_over_hours (steps : Int) (duration : time.Duration) :
    (duration ≤ 0 → ∀ (F : Type) [Float64 F] (height : F),
      spentcalories.meanSpeed steps height duration = Float64.const 0 1) ∧
    (0 < duration →
      (∀ (F : Type) [Float64 F] (height : F),
        Float64.eq (time.Hours duration : F) spentcalories.zero = false →
        spentcalories.meanSpeed steps height duration =
          spentcalories.distance steps height / time.Hours duration) ∧
      (∀ height : B64,
        spentcalories.meanSpeed steps height duration =
          spentcalories.distance steps height / time.Hours duration) ∧
      (∀ height : ℚ,
        spentcalories.meanSpeed steps height duration =
          spentcalories.distance steps height / ((duration : ℚ) / 3600000000000))) := by
  constructor
  · intro hd F _ height
    unfold spentcalories.meanSpeed
    simp only [hd, if_true]
    rfl
  · intro hd
    have hgen : ∀ (F : Type) [Float64 F] (height : F),
        Float64.eq (time.Hours duration : F) spentcalories.zero = false →
        spentcalories.meanSpeed steps height duration =
          spentcalories.distance steps height / time.Hours duration := by
      intro F _ height hz
      unfold spentcalories.meanSpeed
      simp only [not_le.mpr hd, if_false, hz, Bool.false_eq_true]
    exact ⟨hgen, fun height => hgen B64 height (hours_b64_ne_zero duration hd),
      fun height => spentcalories.meanSpeed_rat steps height duration hd⟩

/-- Witness for C16: 1000 steps at height 1.8 in binary64, in one hour and in no time. -/
theorem mean_speed_is_distance_over_hours_witness :
    spentcalories.meanSpeed 1000 (Float64.const 18 10 : B64) 3600000000000 =
      spentcalories.distance 1000 (Float64.const 18 10 : B64) / time.Hours 3600000000000 ∧
    spentcalories.meanSpeed 1000 (Float64.const 18 10 : B64) 0 = Float64.const 0 1 :=
  ⟨((mean_speed_is_distance_over_hours 1000 3600000000000).2 (by decide)).2.1 _,
    (mean_speed_is_distance_over_hours 1000 0).1 (by decide) B64 _⟩

/-! ## The text returned by the entry points -/

namespace daysteps

theorem dayActionInfo_cases {F : Type} [Float64 F] (data : String) (weight height : F)
    (steps : Int) (duration : time.Duration)
    (hp : parsePackage data = (steps, duration, none)) :
    ((spentcalories.WalkingSpentCalories steps weight height duration).2 ≠ none ∧
      DayActionInfo data weight height = "") ∨
    ((spentcalories.WalkingSpentCalories steps weight height duration).2 = none ∧
      DayActionInfo data weight height =
        "Количество шагов: " ++ strconv.Itoa steps ++ ".\nДистанция составила "
          ++ Float64.format2 (Float64.ofInt steps * Float64.const 65 100 / Float64.const 1000 1 : F)
          ++ " км.\nВы сожгли "
          ++ Float64.format2 (spentcalories.WalkingSpentCalories steps weight height duration).1
          ++ " ккал.\n") := by
  unfold DayActionInfo
  rw [dayReport_parsed data weight height steps duration hp]
  rcases hw : spentcalories.WalkingSpentCalories steps weight height duration with ⟨c, _ | e⟩
  · exact Or.inr ⟨rfl, rfl⟩
  · exact Or.inl ⟨by simp, rfl⟩

theorem dayActionInfo_text {F : Type} [Float64 F] (data : String) (weight height : F)
    (steps : Int) (duration : time.Duration)
    (hp : parsePackage data = (steps, duration, none))
    (hne : DayActionInfo data weight height ≠ "") :
    (spentcalories.WalkingSpentCalories steps weight height duration).2 = none ∧
    DayActionInfo data weight height =
      "Количество шагов: " ++ strconv.Itoa steps ++ ".\nДистанция составила "
        ++ Float64.format2 (Float64.ofInt steps * Float64.const 65 100 / Float64.const 1000 1 : F)
        ++ " км.\nВы сожгли "
        ++ Float64.format2 (spentcalories.WalkingSpentCalories steps weight height duration).1
        ++ " ккал.\n" := by
  rcases dayActionInfo_cases data weight height steps duration hp with ⟨_, h⟩ | h
  · exact absurd h hne
  · exact h

theorem dayActionInfo_ne_empty {F : Type} [Float64 F] (data : String) (weight height : F)
    (steps : Int) (duration : time.Duration)
    (hp : parsePackage data = (steps, duration, none))
    (hs : 0 < steps) (hd : 0 < duration)
    (hw : Float64.le weight spentcalories.zero = false)
    (hh : Float64.le height spentcalories.zero = false)
    (hv : Float64.eq (spentcalories.meanSpeed steps height duration) spentcalories.zero = false) :
    DayActionInfo data weight height ≠ "" := by
  unfold DayActionInfo
  rw [dayReport_ok data weight height steps duration hp hs hd hw hh hv]
  exact (text_steps_line _).1

end daysteps

namespace spentcalories

theorem walking_value {F : Type} [Float64 F] (steps : Int) (weight height : F)
    (duration : time.Duration)
    (h : (WalkingSpentCalories steps weight height duration).2 = none) :
    (WalkingSpentCalories steps weight height duration).1 =
      weight * meanSpeed steps height duration * time.Minutes duration / Float64.const 60 1
        * Float64.const 1 2 := by
  unfold WalkingSpentCalories at h ⊢
  by_cases h1 : steps ≤ 0
  · simp [h1] at h
  by_cases h2 : Float64.le weight zero = true
  · simp [h1, h2] at h
  by_cases h3 : Float64.le height zero = true
  · simp [h1, h2, h3] at h
  by_cases h4 : duration ≤ 0
  · simp [h1, h2, h3, h4] at h
  by_cases h5 : Float64.eq (meanSpeed steps height duration) zero = true
  · simp [h1, h2, h3, h4, h5] at h
  · simp only [h1, h2, h3, h4, h5, if_false, Bool.false_eq_true]
    rfl

theorem running_zero_speed {F : Type} [Float64 F] (steps : Int) (weight height : F)
    (duration : time.Duration) (hs : 0 < steps) (hw : Float64.le weight zero = false)
    (hh : Float64.le height zero = false) (hd : 0 < duration)
    (hv : Float64.eq (meanSpeed steps height duration) zero = true) :
    RunningSpentCalories steps weight height duration =
      (Float64.const 0 1, some (fmt.Errorf "невозможно вычислить скорость")) := by
  unfold RunningSpentCalories
  simp only [not_le.mpr hs, not_le.mpr hd, hw, hh, hv, if_false, if_true, Bool.false_eq_true]
  rfl

theorem meanSpeed_of_hours {F : Type} [Float64 F] (steps : Int) (height : F)
    (duration : time.Duration) (hd : 0 < duration)
    (hz : Float64.eq (time.Hours duration : F) zero = false) :
    meanSpeed steps height duration =
      Float64.ofInt steps * (height * Float64.const 45 100) / Float64.const 1000 1
        / time.Hours duration := by
  unfold meanSpeed
  simp only [not_le.mpr hd, if_false, hz, Bool.false_eq_true]
  rfl

theorem trainingInfo_text {F : Type} [Float64 F] [strings.CaseTable] (data : String)
    (weight height : F) (steps : Int) (label : String) (duration : time.Duration)
    (hp : parseTraining data = (steps, label, duration, none))
    (hnone : (TrainingInfo data weight height).2 = none) :
    ∃ calories : F, (TrainingInfo data weight height).1 =
      "Тип тренировки: " ++ label ++ "\n"
        ++ ("Длительность: " ++ Float64.format2 (time.Hours duration : F) ++ " ч.\n")
        ++ ("Дистанция: " ++ Float64.format2
            (Float64.ofInt steps * (height * Float64.const 45 100) / Float64.const 1000 1 : F)
          ++ " км.\n")
        ++ ("Скорость: " ++ Float64.format2 (meanSpeed steps height duration) ++ " км/ч\n")
        ++ ("Сожгли калорий: " ++ Float64.format2 calories ++ "\n") := by
  obtain ⟨r, hr, htext⟩ := trainingInfo_ok_of_no_error data weight height hnone
  obtain ⟨_, hact, hhours, hdist, hspeed⟩ :=
    trainingReport_fields data weight height steps label duration hp r hr
  refine ⟨r.calories, ?_⟩
  rw [htext]
  show r.text = _
  unfold Report.text
  rw [hact, hhours, hdist, hspeed]
  rfl

end spentcalories

/-! ## The distance of the daily report and the height -/

/-- C2, amended: for a record that `parsePackage` accepts, every text that
`DayActionInfo` returns other than the empty string shows the distance
`steps * 0.65 / 1000`, whatever the height, so two calls that differ only in the height
and both return a report show the same distance; a report is returned when weight and
height are not `≤ 0` and the mean speed is not `0` (in exact arithmetic: for all positive
weights and heights).  The distance in a report of `TrainingInfo` for the same steps is
`steps * (height * 0.45) / 1000` and changes with the height: in binary64, 1000 steps
give 0.81 km at height 1.8 and 0.72 km at height 1.6, while `DayActionInfo` shows 0.65 km
for both. -/
theorem day_distance_ignores_height (data : String) (steps : Int) (duration : time.Duration)
    (hp : daysteps.parsePackage data = (steps, duration, none)) :
    (∀ (F : Type) [Float64 F] (weight height : F),
      daysteps.DayActionInfo data weight height ≠ "" →
      daysteps.DayActionInfo data weight height =
        "Количество шагов: " ++ strconv.Itoa steps ++ ".\nДистанция составила "
          ++ Float64.format2 (Float64.ofInt steps * Float64.const 65 100 / Float64.const 1000 1 : F)
          ++ " км.\nВы сожгли "
          ++ Float64.format2 (spentcalories.WalkingSpentCalories steps weight height duration).1
          ++ " ккал.\n") ∧
    (∀ (F : Type) [Float64 F] (weight height1 height2 : F),
      daysteps.DayActionInfo data weight height1 ≠ "" →
      daysteps.DayActionInfo data weight height2 ≠ "" →
      ∃ calories1 calories2 : String,
        daysteps.DayActionInfo data weight height1 =
          "Количество шагов: " ++ strconv.Itoa steps ++ ".\nДистанция составила "
            ++ Float64.format2
              (Float64.ofInt steps * Float64.const 65 100 / Float64.const 1000 1 : F)
            ++ " км.\nВы сожгли " ++ calories1 ++ " ккал.\n" ∧
        daysteps.DayActionInfo data weight height2 =
          "Количество шагов: " ++ strconv.Itoa steps ++ ".\nДистанция составила "
            ++ Float64.format2
              (Float64.ofInt steps * Float64.const 65 100 / Float64.const 1000 1 : F)
            ++ " км.\nВы сожгли " ++ calories2 ++ " ккал.\n") ∧
    (∀ (F : Type) [Float64 F] (weight height : F),
      Float64.le weight spentcalories.zero = false →
      Float64.le height spentcalories.zero = false →
      Float64.eq (spentcalories.meanSpeed steps height duration) spentcalories.zero = false →
      daysteps.DayActionInfo data weight height ≠ "") ∧
    (∀ (F : Type) [Float64 F] [strings.CaseTable] (record label : String) (weight height : F),
      spentcalories.parseTraining record = (steps, label, duration, none) →
      (spentcalories.TrainingInfo record weight height).2 = none →
      ∃ calories : F, (spentcalories.TrainingInfo record weight height).1 =
        "Тип тренировки: " ++ label ++ "\n"
          ++ ("Длительность: " ++ Float64.format2 (time.Hours duration : F) ++ " ч.\n")
          ++ ("Дистанция: " ++ Float64.format2
              (Float64.ofInt steps * (height * Float64.const 45 100) / Float64.const 1000 1 : F)
            ++ " км.\n")
          ++ ("Скорость: " ++ Float64.format2 (spentcalories.meanSpeed steps height duration)
            ++ " км/ч\n")
          ++ ("Сожгли калорий: " ++ Float64.format2 calories ++ "\n")) ∧
    (@spentcalories.TrainingInfo B64 _ strings.basicCaseTable "1000,бег,1h"
        (Float64.const 70 1) (Float64.const 18 10) =
      ("Тип тренировки: бег\nДлительность: 1.00 ч.\nДистанция: 0.81 км.\n"
        ++ "Скорость: 0.81 км/ч\nСожгли калорий: 56.70\n", none) ∧
     @spentcalories.TrainingInfo B64 _ strings.basicCaseTable "1000,бег,1h"
        (Float64.const 70 1) (Float64.const 16 10) =
      ("Тип тренировки: бег\nДлительность: 1.00 ч.\nДистанция: 0.72 км.\n"
        ++ "Скорость: 0.72 км/ч\nСожгли калорий: 50.40\n", none) ∧
     daysteps.DayActionInfo "1000,1h" (Float64.const 70 1 : B64) (Float64.const 18 10) =
      "Количество шагов: 1000.\nДистанция составила 0.65 км.\nВы сожгли 28.35 ккал.\n" ∧
     daysteps.DayActionInfo "1000,1h" (Float64.const 70 1 : B64) (Float64.const 16 10) =
      "Количество шагов: 1000.\nДистанция составила 0.65 км.\nВы сожгли 25.20 ккал.\n") ∧
    (∀ weight height : ℚ, 0 < weight → 0 < height →
      daysteps.DayActionInfo data weight height ≠ "") ∧
    (∀ height1 height2 : ℚ, height1 ≠ height2 →
      spentcalories.distance steps height1 ≠ spentcalories.distance steps height2) := by
  have hpos := parsePackage_accepts_pos data steps duration hp
  have htext : ∀ (F : Type) [Float64 F] (weight height : F),
      daysteps.DayActionInfo data weight height ≠ "" →
      daysteps.DayActionInfo data weight height =
        "Количество шагов: " ++ strconv.Itoa steps ++ ".\nДистанция составила "
          ++ Float64.format2 (Float64.ofInt steps * Float64.const 65 100 / Float64.const 1000 1 : F)
          ++ " км.\nВы сожгли "
          ++ Float64.format2 (spentcalories.WalkingSpentCalories steps weight height duration).1
          ++ " ккал.\n" :=
    fun F _ weight height hne =>
      (daysteps.dayActionInfo_text data weight height steps duration hp hne).2
  have hne : ∀ (F : Type) [Float64 F] (weight height : F),
      Float64.le weight spentcalories.zero = false →
      Float64.le height spentcalories.zero = false →
      Float64.eq (spentcalories.meanSpeed steps height duration) spentcalories.zero = false →
      daysteps.DayActionInfo data weight height ≠ "" :=
    fun F _ weight height hw hh hv =>
      daysteps.dayActionInfo_ne_empty data weight height steps duration hp hpos.1 hpos.2 hw hh hv
  refine ⟨htext, ?_, hne, ?_, ?_, ?_, ?_⟩
  · intro F _ weight height1 height2 h1 h2
    exact ⟨_, _, htext F weight height1 h1, htext F weight height2 h2⟩
  · intro F _ _ record label weight height hpt hnone
    exact spentcalories.trainingInfo_text record weight height steps label duration hpt hnone
  · refine ⟨by decide!, by decide!, by decide!, by decide!⟩
  · intro weight height hw hh
    exact hne ℚ weight height (spentcalories.le_zero_rat_false weight hw)
      (spentcalories.le_zero_rat_false height hh)
      (spentcalories.meanSpeed_rat_ne_zero steps height duration hpos.1 hh hpos.2)
  · intro height1 height2 hneq heq
    rw [spentcalories.distance_rat, spentcalories.distance_rat] at heq
    apply hneq
    have hs : (0 : ℚ) < (steps : ℚ) := by exact_mod_cast hpos.1
    have hk : (steps : ℚ) * (45 / 100) / 1000 ≠ 0 := by positivity
    have e : ((steps : ℚ) * (45 / 100) / 1000) * height1
        = ((steps : ℚ) * (45 / 100) / 1000) * height2 := by
      linear_combination heq
    exact mul_left_cancel₀ hk e

/-- Witness for C2: the record `678,0h50m` in binary64, weight 75 and height 1.75. -/
theorem day_distance_ignores_height_witness :
    daysteps.DayActionInfo "678,0h50m" (Float64.const 75 1 : B64) (Float64.const 175 100) =
      "Количество шагов: " ++ strconv.Itoa 678 ++ ".\nДистанция составила "
        ++ Float64.format2
          (Float64.ofInt 678 * Float64.const 65 100 / Float64.const 1000 1 : B64)
        ++ " км.\nВы сожгли "
        ++ Float64.format2 (spentcalories.WalkingSpentCalories 678 (Float64.const 75 1 : B64)
          (Float64.const 175 100) 3000000000000).1
        ++ " ккал.\n" :=
  (day_distance_ignores_height "678,0h50m" 678 3000000000000 (by decide)).1 B64
    (Float64.const 75 1) (Float64.const 175 100) (by decide!)

/-- C2 as stated fails in binary64: the record `678,0h50m` is accepted and the weight 75
and the heights 1.75 and `2 ^ (-1074)` are positive; with the height 1.75 `DayActionInfo`
reports the distance 0.44 km, with the height `2 ^ (-1074)` it reports no distance at
all, because the mean speed is `0` and `WalkingSpentCalories` returns its error. -/
theorem day_distance_missing_counterexample :
    daysteps.parsePackage "678,0h50m" = (678, 3000000000000, none) ∧
    Float64.le (Float64.const 75 1 : B64) spentcalories.zero = false ∧
    Float64.le (Float64.const 175 100 : B64) spentcalories.zero = false ∧
    Float64.le (B64.fin false 1 (-1074)) spentcalories.zero = false ∧
    daysteps.DayActionInfo "678,0h50m" (Float64.const 75 1 : B64) (Float64.const 175 100) =
      "Количество шагов: 678.\nДистанция составила 0.44 км.\nВы сожгли 20.02 ккал.\n" ∧
    daysteps.DayActionInfo "678,0h50m" (Float64.const 75 1 : B64) (B64.fin false 1 (-1074))
      = "" := by
  refine ⟨by decide, by decide!, by decide!, by decide!, by decide!, by decide!⟩

/-! ## The value of the calorie functions -/

/-- C11, amended: for steps > 0, duration > 0 and a weight and height that are not `≤ 0`,
`RunningSpentCalories` returns `weight * meanSpeed(steps, height, duration) * minutes / 60`
and no error when the mean speed is not `0`, and it returns `0` and the zero speed error
when the mean speed is `0`; in exact arithmetic the mean speed is not `0` and the first
case holds for all positive weights and heights. -/
theorem running_calories_formula (steps : Int) (duration : time.Duration) (hs : 0 < steps)
    (hd : 0 < duration) :
    (∀ (F : Type) [Float64 F] (weight height : F),
      Float64.le weight spentcalories.zero = false →
      Float64.le height spentcalories.zero = false →
      (Float64.eq (spentcalories.meanSpeed steps height duration) spentcalories.zero = false →
        spentcalories.RunningSpentCalories steps weight height duration =
          (weight * spentcalories.meanSpeed steps height duration * time.Minutes duration
            / Float64.const 60 1, none)) ∧
      (Float64.eq (spentcalories.meanSpeed steps height duration) spentcalories.zero = true →
        spentcalories.RunningSpentCalories steps weight height duration =
          (Float64.const 0 1, some (fmt.Errorf "невозможно вычислить скорость")))) ∧
    (∀ weight height : ℚ, 0 < weight → 0 < height →
      spentcalories.RunningSpentCalories steps weight height duration =
        (weight * spentcalories.meanSpeed steps height duration
          * ((duration : ℚ) / 60000000000) / 60, none)) := by
  have hgen : ∀ (F : Type) [Float64 F] (weight height : F),
      Float64.le weight spentcalories.zero = false →
      Float64.le height spentcalories.zero = false →
      Float64.eq (spentcalories.meanSpeed steps height duration) spentcalories.zero = false →
      spentcalories.RunningSpentCalories steps weight height duration =
        (weight * spentcalories.meanSpeed steps height duration * time.Minutes duration
          / Float64.const 60 1, none) := by
    intro F _ weight height hw hh hv
    exact spentcalories.running_ok steps weight height duration hs hw hh hd hv
  constructor
  · intro F _ weight height hw hh
    exact ⟨hgen F weight height hw hh,
      spentcalories.running_zero_speed steps weight height duration hs hw hh hd⟩
  · intro weight height hw hh
    rw [hgen ℚ weight height (spentcalories.le_zero_rat_false weight hw)
      (spentcalories.le_zero_rat_false height hh)
      (spentcalories.meanSpeed_rat_ne_zero steps height duration hs hh hd),
      spentcalories.minutes_rat]
    congr 1
    show _ / (((60 : ℕ) : ℚ) / ((1 : ℕ) : ℚ)) = _
    norm_num

/-- Witness for C11: 1000 steps in one hour, weight 70 and height 1.8 in binary64. -/
theorem running_calories_formula_witness :
    spentcalories.RunningSpentCalories 1000 (Float64.const 70 1 : B64) (Float64.const 18 10)
        3600000000000 =
      ((Float64.const 70 1 : B64)
          * spentcalories.meanSpeed 1000 (Float64.const 18 10 : B64) 3600000000000
          * time.Minutes 3600000000000 / Float64.const 60 1, none) ∧
    spentcalories.RunningSpentCalories 1000 (Float64.const 70 1 : B64) (Float64.const 18 10)
        3600000000000 = (B64.fin false 7979815589747098 (-47), none) :=
  ⟨((running_calories_formula 1000 3600000000000 (by decide) (by decide)).1 B64
      (Float64.const 70 1) (Float64.const 18 10) (by decide!) (by decide!)).1 (by decide!),
    by decide!⟩

/-- C11 as stated fails in binary64: with 1000 steps in one hour, the positive weight 70
and the positive height `2 ^ (-1074)` the mean speed is `0` and `RunningSpentCalories`
returns the zero speed error; with the positive weight `+Inf` the value returned with
that error is `0`, while `weight * meanSpeed * minutes / 60` is not a number. -/
theorem running_formula_counterexample :
    Float64.le (Float64.const 70 1 : B64) spentcalories.zero = false ∧
    Float64.le (B64.fin false 1 (-1074)) spentcalories.zero = false ∧
    Float64.le (B64.inf false) spentcalories.zero = false ∧
    spentcalories.RunningSpentCalories 1000 (Float64.const 70 1 : B64) (B64.fin false 1 (-1074))
        3600000000000 =
      (B64.fin false 0 (-1074), some (fmt.Errorf "невозможно вычислить скорость")) ∧
    spentcalories.RunningSpentCalories 1000 (B64.inf false) (B64.fin false 1 (-1074))
        3600000000000 =
      (B64.fin false 0 (-1074), some (fmt.Errorf "невозможно вычислить скорость")) ∧
    (B64.inf false) * spentcalories.meanSpeed 1000 (B64.fin false 1 (-1074)) 3600000000000
        * (time.Minutes 3600000000000 : B64) / Float64.const 60 1 = B64.nan := by
  refine ⟨by decide!, by decide!, by decide!, by decide!, by decide!, by decide!⟩

/-- C17, amended: the calorie functions compute
`weight * (distance(steps, height) / hours) * minutes / 60` (times `0.5` for walking) in
the arithmetic of the program, where the duration enters through the hours and the
minutes; in exact arithmetic, for steps > 0, weight > 0, height > 0 and any two durations
`d1 > 0` and `d2 > 0`, the duration cancels: `RunningSpentCalories` returns the same value for
`d1` and `d2`, namely `weight * distance(steps, height)`, and `WalkingSpentCalories`
returns half of it for both. -/
theorem calories_ignore_duration (steps : Int) (d1 d2 : time.Duration)
    (hs : 0 < steps) (hd1 : 0 < d1) (hd2 : 0 < d2) :
    (∀ (F : Type) [Float64 F] (weight height : F) (d : time.Duration), 0 < d →
      Float64.le weight spentcalories.zero = false →
      Float64.le height spentcalories.zero = false →
      Float64.eq (time.Hours d : F) spentcalories.zero = false →
      Float64.eq (spentcalories.meanSpeed steps height d) spentcalories.zero = false →
      spentcalories.RunningSpentCalories steps weight height d =
        (weight * (spentcalories.distance steps height / time.Hours d) * time.Minutes d
          / Float64.const 60 1, none) ∧
      spentcalories.WalkingSpentCalories steps weight height d =
        (weight * (spentcalories.distance steps height / time.Hours d) * time.Minutes d
          / Float64.const 60 1 * Float64.const 1 2, none)) ∧
    (∀ weight height : ℚ, 0 < weight → 0 < height →
      spentcalories.RunningSpentCalories steps weight height d1 =
        (weight * spentcalories.distance steps height, none) ∧
      spentcalories.RunningSpentCalories steps weight height d2 =
        (weight * spentcalories.distance steps height, none) ∧
      spentcalories.WalkingSpentCalories steps weight height d1 =
        (weight * spentcalories.distance steps height * (1 / 2), none) ∧
      spentcalories.WalkingSpentCalories steps weight height d2 =
        (weight * spentcalories.distance steps height * (1 / 2), none)) := by
  constructor
  · intro F _ weight height d hd hw hh hz hv
    have hms : spentcalories.meanSpeed steps height d =
        spentcalories.distance steps height / time.Hours d := by
      unfold spentcalories.meanSpeed
      simp only [not_le.mpr hd, if_false, hz, Bool.false_eq_true]
    constructor
    · rw [spentcalories.running_ok steps weight height d hs hw hh hd hv, hms]
      rfl
    · rw [spentcalories.walking_ok steps weight height d hs hw hh hd hv, hms]
      rfl
  · intro weight height hw hh
    exact ⟨spentcalories.running_rat steps weight height d1 hs hw hh hd1,
      spentcalories.running_rat steps weight height d2 hs hw hh hd2,
      spentcalories.walking_rat steps weight height d1 hs hw hh hd1,
      spentcalories.walking_rat steps weight height d2 hs hw hh hd2⟩

/-- Witness for C17: 1000 steps, weight 70, height 1.8, in one hour and in 45 minutes:
the formula in binary64 and the common value in exact arithmetic. -/
theorem calories_ignore_duration_witness :
    spentcalories.RunningSpentCalories 1000 (Float64.const 70 1 : B64) (Float64.const 18 10)
        2700000000000 =
      ((Float64.const 70 1 : B64)
          * (spentcalories.distance 1000 (Float64.const 18 10 : B64)
            / time.Hours 2700000000000)
          * time.Minutes 2700000000000 / Float64.const 60 1, none) ∧
    spentcalories.RunningSpentCalories 1000 (70 : ℚ) (9 / 5 : ℚ) 3600000000000 =
      ((70 : ℚ) * spentcalories.distance 1000 (9 / 5 : ℚ), none) ∧
    spentcalories.RunningSpentCalories 1000 (70 : ℚ) (9 / 5 : ℚ) 2700000000000 =
      ((70 : ℚ) * spentcalories.distance 1000 (9 / 5 : ℚ), none) :=
  ⟨((calories_ignore_duration 1000 3600000000000 2700000000000 (by decide) (by decide)
      (by decide)).1 B64 (Float64.const 70 1) (Float64.const 18 10) 2700000000000 (by decide)
      (by decide!) (by decide!) (by decide!) (by decide!)).1,
    ((calories_ignore_duration 1000 3600000000000 2700000000000 (by decide) (by decide)
      (by decide)).2 70 (9 / 5) (by norm_num) (by norm_num)).1,
    ((calories_ignore_duration 1000 3600000000000 2700000000000 (by decide) (by decide)
      (by decide)).2 70 (9 / 5) (by norm_num) (by norm_num)).2.1⟩

/-- C17 as stated fails in binary64: with weight 70 and height 1.8, `RunningSpentCalories`
returns different values for 1000 steps in one hour and in 45 minutes, and the calories
printed by `TrainingInfo` for 450 steps are 25.52 for one hour and 25.51 for
45 minutes. -/
theorem calories_depend_on_duration_counterexample :
    spentcalories.RunningSpentCalories 1000 (Float64.const 70 1 : B64) (Float64.const 18 10)
        3600000000000 = (B64.fin false 7979815589747098 (-47), none) ∧
    spentcalories.RunningSpentCalories 1000 (Float64.const 70 1 : B64) (Float64.const 18 10)
        2700000000000 = (B64.fin false 7979815589747099 (-47), none) ∧
    @spentcalories.TrainingInfo B64 _ strings.basicCaseTable "450,бег,1h"
        (Float64.const 70 1) (Float64.const 18 10) =
      ("Тип тренировки: бег\nДлительность: 1.00 ч.\nДистанция: 0.36 км.\n"
        ++ "Скорость: 0.36 км/ч\nСожгли калорий: 25.52\n", none) ∧
    @spentcalories.TrainingInfo B64 _ strings.basicCaseTable "450,бег,45m"
        (Float64.const 70 1) (Float64.const 18 10) =
      ("Тип тренировки: бег\nДлительность: 0.75 ч.\nДистанция: 0.36 км.\n"
        ++ "Скорость: 0.49 км/ч\nСожгли калорий: 25.51\n", none) := by
  refine ⟨by decide!, by decide!, by decide!, by decide!⟩

/-! ## The calories of the daily report and the height -/

/-- C18, amended: for a record that `parsePackage` accepts, every text that
`DayActionInfo` returns other than the empty string shows the value of
`WalkingSpentCalories(steps, weight, height, duration)` as calories, which is
`weight * meanSpeed(steps, height, duration) * minutes / 60 * 0.5` and so is computed from
`distance(steps, height)` with the step length `0.45 * height`, and shows the distance
`steps * 0.65 / 1000` with the fixed step length; a report is returned when weight and
height are not `≤ 0` and the mean speed is not `0` (in exact arithmetic: for all positive
weights and heights).  For some pair of positive heights the calories differ while the
distance is the same: in binary64 the record `678,0h50m` with weight 75 shows 0.44 km and
20.02 kcal at height 1.75, and 0.44 km and 18.31 kcal at height 1.6. -/
theorem day_calories_follow_height (data : String) (steps : Int) (duration : time.Duration)
    (hp : daysteps.parsePackage data = (steps, duration, none)) :
    (∀ (F : Type) [Float64 F] (weight height : F),
      daysteps.DayActionInfo data weight height ≠ "" →
      (spentcalories.WalkingSpentCalories steps weight height duration).2 = none ∧
      (spentcalories.WalkingSpentCalories steps weight height duration).1 =
        weight * spentcalories.meanSpeed steps height duration * time.Minutes duration
          / Float64.const 60 1 * Float64.const 1 2 ∧
      daysteps.DayActionInfo data weight height =
        "Количество шагов: " ++ strconv.Itoa steps ++ ".\nДистанция составила "
          ++ Float64.format2 (Float64.ofInt steps * Float64.const 65 100 / Float64.const 1000 1 : F)
          ++ " км.\nВы сожгли "
          ++ Float64.format2 (spentcalories.WalkingSpentCalories steps weight height duration).1
          ++ " ккал.\n") ∧
    (∀ (F : Type) [Float64 F] (weight height : F),
      Float64.le weight spentcalories.zero = false →
      Float64.le height spentcalories.zero = false →
      Float64.eq (spentcalories.meanSpeed steps height duration) spentcalories.zero = false →
      daysteps.DayActionInfo data weight height ≠ "") ∧
    (∀ (F : Type) [Float64 F] (height : F),
      Float64.eq (time.Hours duration : F) spentcalories.zero = false →
      spentcalories.meanSpeed steps height duration =
        Float64.ofInt steps * (height * Float64.const 45 100) / Float64.const 1000 1
          / time.Hours duration) ∧
    (∀ height : B64,
      spentcalories.meanSpeed steps height duration =
        Float64.ofInt steps * (height * Float64.const 45 100) / Float64.const 1000 1
          / time.Hours duration) ∧
    (daysteps.parsePackage "678,0h50m" = (678, 3000000000000, none) ∧
     daysteps.DayActionInfo "678,0h50m" (Float64.const 75 1 : B64) (Float64.const 175 100) =
      "Количество шагов: 678.\nДистанция составила 0.44 км.\nВы сожгли 20.02 ккал.\n" ∧
     daysteps.DayActionInfo "678,0h50m" (Float64.const 75 1 : B64) (Float64.const 160 100) =
      "Количество шагов: 678.\nДистанция составила 0.44 км.\nВы сожгли 18.31 ккал.\n") ∧
    (∀ weight height : ℚ, 0 < weight → 0 < height →
      daysteps.DayActionInfo data weight height ≠ "" ∧
      (spentcalories.WalkingSpentCalories steps weight height duration).1 =
        weight * ((steps : ℚ) * (height * (45 / 100)) / 1000) * (1 / 2)) := by
  have hpos := parsePackage_accepts_pos data steps duration hp
  have hne : ∀ (F : Type) [Float64 F] (weight height : F),
      Float64.le weight spentcalories.zero = false →
      Float64.le height spentcalories.zero = false →
      Float64.eq (spentcalories.meanSpeed steps height duration) spentcalories.zero = false →
      daysteps.DayActionInfo data weight height ≠ "" :=
    fun F _ weight height hw hh hv =>
      daysteps.dayActionInfo_ne_empty data weight height steps duration hp hpos.1 hpos.2 hw hh hv
  refine ⟨?_, hne, ?_, ?_, ?_, ?_⟩
  · intro F _ weight height hnonempty
    obtain ⟨hnone, htext⟩ :=
      daysteps.dayActionInfo_text data weight height steps duration hp hnonempty
    exact ⟨hnone, spentcalories.walking_value steps weight height duration hnone, htext⟩
  · intro F _ height hz
    exact spentcalories.meanSpeed_of_hours steps height duration hpos.2 hz
  · intro height
    exact spentcalories.meanSpeed_of_hours steps height duration hpos.2
      (hours_b64_ne_zero duration hpos.2)
  · refine ⟨by decide, by decide!, by decide!⟩
  · intro weight height hw hh
    refine ⟨hne ℚ weight height (spentcalories.le_zero_rat_false weight hw)
      (spentcalories.le_zero_rat_false height hh)
      (spentcalories.meanSpeed_rat_ne_zero steps height duration hpos.1 hh hpos.2), ?_⟩
    rw [spentcalories.walking_rat steps weight height duration hpos.1 hw hh hpos.2,
      spentcalories.distance_rat]

/-- Witness for C18: the record `3456,3h00m` in binary64, weight 75 and height 1.75. -/
theorem day_calories_follow_height_witness :
    (spentcalories.WalkingSpentCalories 3456 (Float64.const 75 1 : B64) (Float64.const 175 100)
        10800000000000).2 = none ∧
    (spentcalories.WalkingSpentCalories 3456 (Float64.const 75 1 : B64) (Float64.const 175 100)
        10800000000000).1 =
      (Float64.const 75 1 : B64)
          * spentcalories.meanSpeed 3456 (Float64.const 175 100 : B64) 10800000000000
          * time.Minutes 10800000000000 / Float64.const 60 1 * Float64.const 1 2 ∧
    daysteps.DayActionInfo "3456,3h00m" (Float64.const 75 1 : B64) (Float64.const 175 100) =
      "Количество шагов: " ++ strconv.Itoa 3456 ++ ".\nДистанция составила "
        ++ Float64.format2
          (Float64.ofInt 3456 * Float64.const 65 100 / Float64.const 1000 1 : B64)
        ++ " км.\nВы сожгли "
        ++ Float64.format2 (spentcalories.WalkingSpentCalories 3456 (Float64.const 75 1 : B64)
          (Float64.const 175 100) 10800000000000).1
        ++ " ккал.\n" :=
  (day_calories_follow_height "3456,3h00m" 3456 10800000000000 (by decide)).1 B64
    (Float64.const 75 1) (Float64.const 175 100) (by decide!)

/-- C18 as stated fails in binary64: the record `3456,3h00m` is accepted and the weight
75 and the height `2 ^ (-1074)` are positive, but `WalkingSpentCalories` returns the zero
speed error and `DayActionInfo` returns the empty string, so no calories are reported. -/
theorem day_calories_missing_counterexample :
    daysteps.parsePackage "3456,3h00m" = (3456, 10800000000000, none) ∧
    Float64.le (Float64.const 75 1 : B64) spentcalories.zero = false ∧
    Float64.le (B64.fin false 1 (-1074)) spentcalories.zero = false ∧
    spentcalories.WalkingSpentCalories 3456 (Float64.const 75 1 : B64) (B64.fin false 1 (-1074))
        10800000000000 =
      (B64.fin false 0 (-1074), some (fmt.Errorf "невозможно вычислить скорость")) ∧
    daysteps.DayActionInfo "3456,3h00m" (Float64.const 75 1 : B64) (B64.fin false 1 (-1074))
      = "" := by
  refine ⟨by decide, by decide!, by decide!, by decide!, by decide!⟩
